import Mathlib

/-!
smart-sales: order placement and completion over the document store.

A shallow embedding of the ordering screen (`BuyerDashboard.jsx`), of the
pending-orders screen (`PendingOrders.jsx`), of the table-management screen
(`Tables.jsx`), and of the login handler (`Login.jsx`), the low-stock count of the
dashboard (`Summary.jsx`) and the top customers of the sales report
(`SalesReport.jsx`).

Modelling conventions.
* A collection of the document store is a list of `(document id, fields)` pairs.
* JavaScript numbers: stock and quantities are integers (`ℤ`), prices and totals
  are exact rationals (`ℚ`); rounding of binary floating point is not modelled.
* `updateDoc` is rejected exactly when the addressed document does not exist;
  `addDoc` and `setDoc` are always accepted; `addDoc` files the document under the
  identifier the store generates, which the environment supplies (`Env.newId`).
* `serverTimestamp()` is the environment's clock value `Env.now`.
* A handler returns the new store, the new screen state and the alerts shown,
  in the order in which they are shown.
* State updates requested before a handler throws (`setItems`, `setCart`) take
  effect all the same.
-/

namespace SmartSales

/-! Document store. -/

/-- Fields of a document of the `inventory` collection. -/
structure ItemData where
  name : String
  price : ℚ
  stock : ℤ
  category : Option String
  deriving DecidableEq, Repr

/-- One entry of an order's `items` array. -/
structure OrderLine where
  id : String
  name : String
  price : ℚ
  quantity : ℤ
  deriving DecidableEq, Repr

/-- Fields of a document of the `orders` collection. -/
structure OrderData where
  customerName : String
  phone : String
  paymentMethod : String
  items : List OrderLine
  totalPrice : ℚ
  status : String
  tableId : Option String
  timestamp : Nat
  deriving DecidableEq, Repr

/-- Fields of a document of the `tables` collection. -/
structure TableData where
  status : String
  orderId : Option String
  timestamp : Nat
  deriving DecidableEq, Repr

/-- The three collections of the document store. -/
structure Store where
  inventory : List (String × ItemData)
  orders : List (String × OrderData)
  tables : List (String × TableData)
  deriving DecidableEq, Repr

/-- What the environment contributes to one handler run: the identifier the store
generates for an added document, the server time, and whether the browser refuses
to open the receipt window (`window.open` then returns no window). -/
structure Env where
  newId : String
  now : Nat
  popupBlocked : Bool
  deriving DecidableEq, Repr

/-- The store's `updateDoc(doc(db, coll, id), fields)`: `none` when no document has
that id (the request is rejected), otherwise the fields are merged into it. -/
def updateDoc {α : Type} (coll : List (String × α)) (id : String) (f : α → α) :
    Option (List (String × α)) :=
  if coll.any (fun d => d.1 == id) then
    some (coll.map (fun d => if d.1 == id then (d.1, f d.2) else d))
  else none

/-- The store's `addDoc(collection(db, coll), fields)` with generated id `newId`. -/
def addDoc {α : Type} (coll : List (String × α)) (newId : String) (fields : α) :
    List (String × α) :=
  coll ++ [(newId, fields)]

/-! Ordering screen (`BuyerDashboard.jsx`). -/

/-- A menu item as held in the screen's `items` state. -/
structure Item where
  id : String
  name : String
  price : ℚ
  stock : ℤ
  category : String
  deriving DecidableEq, Repr

/-- The `customerInfo` form state; `tableId` is `""` while no table is selected. -/
structure CustomerInfo where
  name : String
  phone : String
  payOnDelivery : Bool
  tableId : String
  deriving DecidableEq, Repr

/-- State of the ordering screen. The cart is the object mapping item ids to
quantities, kept as the list of its entries in key order; `tables` is the list of
free tables that `fetchTables` loaded; `items` is the catalog that `fetchItems`
loaded when the screen was mounted. -/
structure BuyerState where
  items : List Item
  cart : List (String × ℤ)
  isModalOpen : Bool
  tables : List (String × TableData)
  customerInfo : CustomerInfo
  deriving DecidableEq, Repr

/-- The `fetchItems` effect: every inventory document with its id, the category
defaulting to `"other"` when absent or empty. -/
def fetchItems (inventory : List (String × ItemData)) : List Item :=
  inventory.map (fun d =>
    { id := d.1, name := d.2.name, price := d.2.price, stock := d.2.stock,
      category := match d.2.category with
        | some c => if c = "" then "other" else c
        | none => "other" })

/-- The `fetchTables` effect: the table documents whose status is `"free"`. -/
def fetchTables (tables : List (String × TableData)) : List (String × TableData) :=
  tables.filter (fun t => t.2.status == "free")

/-- The lookup `items.find(i => i.id === itemId)`. -/
def findItem (items : List Item) (itemId : String) : Option Item :=
  items.find? (fun i => i.id == itemId)

/-- The summand `item ? item.price * cart[itemId] : 0` of `calculateTotal`. -/
def lineAmount (items : List Item) (e : String × ℤ) : ℚ :=
  match findItem items e.1 with
  | some item => item.price * (e.2 : ℚ)
  | none => 0

/-- The function `calculateTotal`: a left fold over the cart keys, from 0. -/
def calculateTotal (items : List Item) (cart : List (String × ℤ)) : ℚ :=
  cart.foldl (fun sum e => sum + lineAmount items e) 0

/-- An element of `inventoryUpdates`. -/
structure InventoryUpdate where
  id : String
  newStock : ℤ
  deriving DecidableEq, Repr

/-- The messages the two screens show with `alert`. -/
inductive Alert where
  | notEnoughStock (name : String) (stock : ℤ)
  | fillRequired
  | selectTable
  | tableNotUpdated
  | orderPlaced
  | failedToPlace
  | failedToComplete
  | failedToUpdateStatus
  deriving DecidableEq, Repr

/-- The first loop of `placeOrder` over the cart, started with the lists built so
far: an entry whose item is not found is skipped, an entry asking for more than the
item's stock stops the handler with the alert, any other entry pushes an order line
and an inventory update. -/
def scanCart (items : List Item) :
    List (String × ℤ) → List OrderLine → List InventoryUpdate →
      Except Alert (List OrderLine × List InventoryUpdate)
  | [], orderItems, inventoryUpdates => .ok (orderItems, inventoryUpdates)
  | (itemId, orderedQuantity) :: rest, orderItems, inventoryUpdates =>
    match findItem items itemId with
    | none => scanCart items rest orderItems inventoryUpdates
    | some item =>
      if item.stock < orderedQuantity then
        .error (.notEnoughStock item.name item.stock)
      else
        scanCart items rest
          (orderItems ++ [{ id := itemId, name := item.name, price := item.price,
                            quantity := orderedQuantity }])
          (inventoryUpdates ++ [{ id := itemId, newStock := item.stock - orderedQuantity }])

/-- The second loop of `placeOrder`: one `updateDoc` per inventory update, in order.
The flag is `false` when a request was rejected; the writes made before it stay. -/
def writeInventory :
    List (String × ItemData) → List InventoryUpdate → List (String × ItemData) × Bool
  | inventory, [] => (inventory, true)
  | inventory, update :: rest =>
    match updateDoc inventory update.id (fun d => { d with stock := update.newStock }) with
    | none => (inventory, false)
    | some inventory' => writeInventory inventory' rest

/-- The `setItems` call at the end of `placeOrder`. -/
def refreshItems (items : List Item) (inventoryUpdates : List InventoryUpdate) : List Item :=
  items.map (fun item =>
    match inventoryUpdates.find? (fun u => u.id == item.id) with
    | some update => { item with stock := update.newStock }
    | none => item)

/-- Arguments of the `printReceipt` call. -/
structure Receipt where
  orderItems : List OrderLine
  totalPrice : ℚ
  deriving DecidableEq, Repr

/-- Outcome of one run of `placeOrder`. -/
structure PlaceResult where
  store : Store
  ui : BuyerState
  alerts : List Alert
  receipt : Option Receipt
  deriving DecidableEq, Repr

/-- The document `orderData` that `placeOrder` builds. -/
def orderData (env : Env) (info : CustomerInfo) (orderItems : List OrderLine)
    (totalPrice : ℚ) : OrderData :=
  { customerName := info.name
    phone := info.phone
    paymentMethod := if info.payOnDelivery then "Pay on Delivery" else "Other"
    items := orderItems
    totalPrice := totalPrice
    status := "pending"
    tableId := if info.tableId = "" then none else some info.tableId
    timestamp := env.now }

/-- The table block of `placeOrder`: nothing when no table is selected, otherwise the
`updateDoc` on the selected table and, when it is rejected, the alert of the `catch`. -/
def occupyTable (env : Env) (tables : List (String × TableData)) (tableId : String) :
    List (String × TableData) × List Alert :=
  if tableId = "" then (tables, [])
  else
    match updateDoc tables tableId
        (fun t => { t with status := "occupied", orderId := some env.newId,
                           timestamp := env.now }) with
    | some tables' => (tables', [])
    | none => (tables, [.tableNotUpdated])

/-- The call `printReceipt(orderItems, totalPrice)` that ends the `try` block of
`placeOrder`. When `window.open` returns no window, the call throws on
`printWindow.document` and the handler's `catch` shows the failed-to-place alert;
otherwise the receipt is printed, which is recorded here, not performed. -/
def printReceipt (env : Env) (orderItems : List OrderLine) (totalPrice : ℚ) :
    Option Receipt × List Alert :=
  if env.popupBlocked then (none, [.failedToPlace])
  else (some { orderItems := orderItems, totalPrice := totalPrice }, [])

/-- The handler `placeOrder`. -/
def placeOrder (env : Env) (store : Store) (ui : BuyerState) : PlaceResult :=
  match scanCart ui.items ui.cart [] [] with
  | .error a => { store := store, ui := ui, alerts := [a], receipt := none }
  | .ok (orderItems, inventoryUpdates) =>
    let totalPrice := calculateTotal ui.items ui.cart
    if ui.customerInfo.name = "" ∨ ui.customerInfo.phone = "" then
      { store := store, ui := ui, alerts := [.fillRequired], receipt := none }
    else if 0 < ui.tables.length ∧ ui.customerInfo.tableId = "" then
      { store := store, ui := ui, alerts := [.selectTable], receipt := none }
    else
      let orders := addDoc store.orders env.newId
        (orderData env ui.customerInfo orderItems totalPrice)
      match writeInventory store.inventory inventoryUpdates with
      | (inventory, false) =>
        { store := { inventory := inventory, orders := orders, tables := store.tables }
          ui := ui, alerts := [.failedToPlace], receipt := none }
      | (inventory, true) =>
        let tableWrite := occupyTable env store.tables ui.customerInfo.tableId
        { store := { inventory := inventory, orders := orders, tables := tableWrite.1 }
          ui := { ui with items := refreshItems ui.items inventoryUpdates
                          isModalOpen := false
                          cart := [] }
          alerts := tableWrite.2 ++ [.orderPlaced] ++ (printReceipt env orderItems totalPrice).2
          receipt := (printReceipt env orderItems totalPrice).1 }

/-! Pending-orders screen (`PendingOrders.jsx`). -/

/-- The `fetchOrders` effect: the order documents whose status is `"pending"`. -/
def fetchOrders (orders : List (String × OrderData)) : List (String × OrderData) :=
  orders.filter (fun o => o.2.status == "pending")

/-- Outcome of one run of `handleCompleteOrder`. -/
structure CompleteResult where
  store : Store
  orders : List (String × OrderData)
  alerts : List Alert
  deriving DecidableEq, Repr

/-- The truthy `tableId` of the order looked up in the screen's list, if any. -/
def linkedTable (orderToComplete : Option (String × OrderData)) : Option String :=
  match orderToComplete with
  | some o =>
    match o.2.tableId with
    | some t => if t = "" then none else some t
    | none => none
  | none => none

/-- The handler `handleCompleteOrder` of the pending-orders screen, whose list of
pending orders is `orders`. -/
def handleCompleteOrder (store : Store) (orders : List (String × OrderData)) (id : String) :
    CompleteResult :=
  let orderToComplete := orders.find? (fun order => order.1 == id)
  match updateDoc store.orders id (fun o => { o with status := "completed" }) with
  | none => { store := store, orders := orders, alerts := [.failedToComplete] }
  | some storeOrders =>
    let tables :=
      match linkedTable orderToComplete with
      | some tableId =>
        match updateDoc store.tables tableId
            (fun t => { t with status := "free", orderId := none }) with
        | some tables => tables
        | none => store.tables
      | none => store.tables
    { store := { store with orders := storeOrders, tables := tables }
      orders := orders.filter (fun order => order.1 != id)
      alerts := [] }

/-! Table bootstrap (`BuyerDashboard.jsx`) and table-management screen (`Tables.jsx`). -/

/-- The store's `setDoc(doc(db, coll, id), fields)`: the document with that id is
created, or replaced when it exists. -/
def setDoc {α : Type} (coll : List (String × α)) (id : String) (fields : α) :
    List (String × α) :=
  if coll.any (fun d => d.1 == id) then
    coll.map (fun d => if d.1 == id then (d.1, fields) else d)
  else coll ++ [(id, fields)]

/-- The list `defaultTables` of `initializeTables`. -/
def defaultTables : List String :=
  ["table1", "table2", "table3", "table4", "table5", "table6"]

/-- The effect `initializeTables` of the ordering screen: when the tables collection
is empty, one `setDoc` per default table, in order; otherwise no write. -/
def initializeTables (env : Env) (store : Store) : Store :=
  if store.tables.isEmpty then
    { store with
      tables := defaultTables.foldl
        (fun tables tableId =>
          setDoc tables tableId { status := "free", orderId := none, timestamp := env.now })
        store.tables }
  else store

/-- The merge of `updateData` into a table record by `handleStatusChange`: status and
timestamp, and orderId null when the new status is `"free"`. -/
def applyStatus (env : Env) (newStatus : String) (t : TableData) : TableData :=
  { status := newStatus
    orderId := if newStatus = "free" then none else t.orderId
    timestamp := env.now }

/-- Outcome of one run of `handleStatusChange`. -/
structure StatusResult where
  store : Store
  tables : List (String × TableData)
  editingTable : Option String
  alerts : List Alert
  deriving DecidableEq, Repr

/-- The handler `handleStatusChange` of the table-management screen, whose state is
the loaded list `tables` and the table being edited. The local copy receives the
same merge; its timestamp placeholder is modelled by the server time. -/
def handleStatusChange (env : Env) (store : Store) (tables : List (String × TableData))
    (editingTable : Option String) (tableId newStatus : String) : StatusResult :=
  match updateDoc store.tables tableId (applyStatus env newStatus) with
  | none =>
    { store := store, tables := tables, editingTable := editingTable,
      alerts := [.failedToUpdateStatus] }
  | some storeTables =>
    { store := { store with tables := storeTables }
      tables := tables.map (fun table =>
        if table.1 == tableId then (table.1, applyStatus env newStatus table.2) else table)
      editingTable := none
      alerts := [] }

/-! JavaScript objects used as maps: the list of entries in key order. The rule that
puts integer-like keys first in iteration order is not modelled. The members that a
plain object inherits from `Object.prototype` are modelled where the keys are free
text (the customer names of the sales report), not where they are document ids that
the store generates (the cart). -/

/-- The read `obj[key]`: `none` stands for `undefined`. -/
def objGet {α : Type} (obj : List (String × α)) (key : String) : Option α :=
  (obj.find? (fun e => e.1 == key)).map (fun e => e.2)

/-- The assignment `obj[key] = value`: an existing key keeps its place, a new key is
added at the end. -/
def objSet {α : Type} (obj : List (String × α)) (key : String) (value : α) :
    List (String × α) :=
  if obj.any (fun e => e.1 == key) then
    obj.map (fun e => if e.1 == key then (e.1, value) else e)
  else obj ++ [(key, value)]

/-- The statement `delete obj[key]`. -/
def objDelete {α : Type} (obj : List (String × α)) (key : String) : List (String × α) :=
  obj.filter (fun e => e.1 != key)

/-! Cart and category bar of the ordering screen (`BuyerDashboard.jsx`). -/

/-- The function `updateCart`, as the state update it passes to `setCart`. -/
def updateCart (cart : List (String × ℤ)) (itemId : String) (quantity : ℤ) :
    List (String × ℤ) :=
  if 0 < quantity then objSet cart itemId quantity else objDelete cart itemId

/-- The quantity `cart[itemId] || 0` that the buttons of the ordering screen read. -/
def cartQuantity (cart : List (String × ℤ)) (itemId : String) : ℤ :=
  match objGet cart itemId with
  | some quantity => quantity
  | none => 0

/-- What the buyer can do on the ordering screen that changes the cart: press the minus
or the plus button of an item, or confirm the order in the modal, with the form and
the free-table list as they are then, on the store as it is then. -/
inductive ScreenEvent where
  | minus (itemId : String)
  | plus (itemId : String)
  | confirm (env : Env) (store : Store) (customerInfo : CustomerInfo)
      (tables : List (String × TableData))
  deriving DecidableEq, Repr

/-- The screen after one event. The minus and plus buttons exist for the items of the
catalog (menu grid) and for the cart entries found in the catalog (cart panel), so
a press for any other id changes nothing; their `disabled` attribute is not modelled,
which allows more presses than the screen does. -/
def screenStep (ui : BuyerState) : ScreenEvent → BuyerState
  | .minus itemId =>
    if (findItem ui.items itemId).isSome then
      { ui with cart := updateCart ui.cart itemId (cartQuantity ui.cart itemId - 1) }
    else ui
  | .plus itemId =>
    if (findItem ui.items itemId).isSome then
      { ui with cart := updateCart ui.cart itemId (cartQuantity ui.cart itemId + 1) }
    else ui
  | .confirm env store customerInfo tables =>
    (placeOrder env store
      { ui with customerInfo := customerInfo, tables := tables, isModalOpen := true }).ui

/-- The ordering screen once `fetchItems` has loaded the catalog: the cart is empty. -/
def loadedScreen (inventory : List (String × ItemData)) : BuyerState :=
  { items := fetchItems inventory
    cart := []
    isModalOpen := false
    tables := []
    customerInfo := { name := "", phone := "", payOnDelivery := true, tableId := "" } }

/-- The screen after a sequence of events. -/
def screenRun (ui : BuyerState) (events : List ScreenEvent) : BuyerState :=
  events.foldl screenStep ui

/-- The values of `new Set(xs)` in iteration order: first occurrences, in order. -/
def newSet (xs : List String) : List String :=
  xs.foldl (fun seen x => if x ∈ seen then seen else seen ++ [x]) []

/-- The list `categories` of the ordering screen. -/
def categories (items : List Item) : List String :=
  "all" :: newSet (items.map (fun item => item.category))

/-- The list `filteredItems` of the ordering screen. -/
def filteredItems (items : List Item) (activeCategory : String) : List Item :=
  if activeCategory = "all" then items
  else items.filter (fun item => item.category == activeCategory)

/-! Login screen (`Login.jsx`). -/

/-- Fields of a document of the `users` collection; `role` may be missing. -/
structure UserData where
  email : String
  role : Option String
  deriving DecidableEq, Repr

/-- State of the login form. -/
structure LoginForm where
  email : String
  password : String
  userType : String
  deriving DecidableEq, Repr

/-- The messages the login screen shows with `alert`. -/
inductive LoginAlert where
  | unknownRole
  | userNotFound
  | invalidLogin
  deriving DecidableEq, Repr

/-- Outcome of one run of the login handler: the route passed to `navigate`, if any. -/
structure LoginResult where
  route : Option String
  alerts : List LoginAlert
  deriving DecidableEq, Repr

/-- The handler `handleSubmit` of the login screen. The authentication service is the
function `signIn`, which gives the user id for accepted credentials. -/
def handleSubmit (signIn : String → String → Option String)
    (users : List (String × UserData)) (form : LoginForm) : LoginResult :=
  match signIn form.email form.password with
  | none => { route := none, alerts := [.invalidLogin] }
  | some uid =>
    match users.find? (fun d => d.1 == uid) with
    | some userDoc =>
      if userDoc.2.role = some "admin" then { route := some "/summary", alerts := [] }
      else if userDoc.2.role = some "buyer" then { route := some "/buyer", alerts := [] }
      else { route := none, alerts := [.unknownRole] }
    | none => { route := none, alerts := [.userNotFound] }

/-! Dashboard (`Summary.jsx`). -/

/-- The read `item[field]` of a numeric field of an inventory item, as loaded by the
dashboard from a document with the fields name, price, stock and category: a field
the document does not have reads as `undefined` (`none`). -/
def numberField (item : String × ItemData) (field : String) : Option ℚ :=
  if field = "price" then some item.2.price
  else if field = "stock" then some (item.2.stock : ℚ)
  else none

/-- The comparison `x < 10` on a value that may be `undefined`: false on `undefined`. -/
def belowTen (x : Option ℚ) : Bool :=
  match x with
  | some q => decide (q < 10)
  | none => false

/-- The count `lowStock` that `fetchData` stores in `lowStockItems`. -/
def lowStockItems (inventory : List (String × ItemData)) : ℕ :=
  (inventory.filter (fun item => belowTen (numberField item "quantity"))).length

/-! Sales report (`SalesReport.jsx`). -/

/-- A value held under a key of `customerSpending`, or read from that object: a
number, or text. Text is kept as its head followed by the numbers that `+` appended
to it, one after another, in their decimal rendering; how JavaScript renders a
number is not modelled. -/
inductive Amount where
  | number (q : ℚ)
  | text (head : String) (appended : List ℚ)
  deriving DecidableEq, Repr

/-- The names of the function members that every plain object inherits from
`Object.prototype`. -/
def inheritedFunctions : List String :=
  ["__defineGetter__", "__defineSetter__", "hasOwnProperty", "__lookupGetter__",
   "__lookupSetter__", "isPrototypeOf", "propertyIsEnumerable", "toString", "valueOf",
   "toLocaleString"]

/-- The text that `+` makes of the member that the object literal `{}` inherits under
this name, if it inherits one: `Object.prototype` itself under `__proto__`, the
function `Object` under `constructor`, a native function under the other names (in
the rendering of V8). -/
def inheritedText (name : String) : Option String :=
  if name = "__proto__" then some "[object Object]"
  else if name = "constructor" then some "function Object() \x7b [native code] \x7d"
  else if name ∈ inheritedFunctions then
    some ("function " ++ name ++ "() \x7b [native code] \x7d")
  else none

/-- The operand `acc[name] || 0`: the own value when it is truthy, 0 when it is falsy;
without an own value the inherited member, which is truthy and is given here by the
text that `+` makes of it; 0 when there is neither. -/
def spentSoFar (acc : List (String × Amount)) (name : String) : Amount :=
  match objGet acc name with
  | some (.number q) => if q = 0 then .number 0 else .number q
  | some (.text head appended) =>
    if head = "" ∧ appended = [] then .number 0 else .text head appended
  | none =>
    match inheritedText name with
    | some head => .text head []
    | none => .number 0

/-- The sum `value + totalPrice`: addition on a number, concatenation on text. -/
def plus (value : Amount) (totalPrice : ℚ) : Amount :=
  match value with
  | .number q => .number (q + totalPrice)
  | .text head appended => .text head (appended ++ [totalPrice])

/-- The assignment `acc[name] = value` of a number or a text to the accumulator: under
`__proto__` it runs the inherited setter, which ignores such a value; under any
other name it sets the own property. -/
def assign (acc : List (String × Amount)) (name : String) (value : Amount) :
    List (String × Amount) :=
  if name = "__proto__" then acc else objSet acc name value

/-- The object `customerSpending`: a fold over the completed orders. -/
def customerSpending (completedOrders : List (String × OrderData)) :
    List (String × Amount) :=
  completedOrders.foldl
    (fun acc order =>
      assign acc order.2.customerName
        (plus (spentSoFar acc order.2.customerName) order.2.totalPrice))
    []

/-- The conversion of an amount to a number by `-`. The texts that `customerSpending`
holds start with the text of an inherited member and convert to NaN (`none`). -/
def toNumber : Amount → Option ℚ
  | .number q => some q
  | .text _ _ => none

/-- Whether the comparator `(a, b) => b[1] - a[1]` lets `a` stay before `b`: its value
is not positive. A value NaN counts as 0. -/
def staysBefore (a b : String × Amount) : Bool :=
  match toNumber b.2, toNumber a.2 with
  | some y, some x => decide (y - x ≤ 0)
  | _, _ => true

/-- The list `topCustomers`: the entries sorted with the comparator by a stable sort,
and cut to five. With a text among the amounts the comparator is not consistent and
the order is the engine's; merge sort stands for it. -/
def topCustomers (completedOrders : List (String × OrderData)) : List (String × Amount) :=
  ((customerSpending completedOrders).mergeSort staysBefore).take 5

/-! Notions used to state the properties. -/

/-- A document with identifier `id` exists in the collection. -/
def HasDoc {α : Type} (coll : List (String × α)) (id : String) : Prop :=
  ∃ d ∈ coll, d.1 = id

instance {α : Type} (coll : List (String × α)) (id : String) : Decidable (HasDoc coll id) :=
  inferInstanceAs (Decidable (∃ d ∈ coll, d.1 = id))

/-- Every cart entry whose item is in the catalog asks for at most its stock: the
cart passes the stock check of `placeOrder`. -/
def CartInStock (items : List Item) (cart : List (String × ℤ)) : Prop :=
  ∀ e ∈ cart, ∀ item, findItem items e.1 = some item → e.2 ≤ item.stock

instance (items : List Item) (cart : List (String × ℤ)) : Decidable (CartInStock items cart) :=
  inferInstanceAs (Decidable (∀ e ∈ cart, ∀ item, findItem items e.1 = some item →
    e.2 ≤ item.stock))

/-- The order line a cart entry gives when its item is in the catalog. -/
def lineOf (items : List Item) (e : String × ℤ) : Option OrderLine :=
  (findItem items e.1).map
    (fun item => { id := e.1, name := item.name, price := item.price, quantity := e.2 })

/-- The inventory update a cart entry gives when its item is in the catalog. -/
def updateOf (items : List Item) (e : String × ℤ) : Option InventoryUpdate :=
  (findItem items e.1).map (fun item => { id := e.1, newStock := item.stock - e.2 })

/-- The effect of one accepted stock write on the inventory collection. -/
def setStock (inventory : List (String × ItemData)) (u : InventoryUpdate) :
    List (String × ItemData) :=
  inventory.map (fun d => if d.1 == u.id then (d.1, { d.2 with stock := u.newStock }) else d)

/-- A point read of an item's stock in the inventory collection. -/
def stockOf (inventory : List (String × ItemData)) (id : String) : Option ℤ :=
  (inventory.find? (fun d => d.1 == id)).map (fun d => d.2.stock)

/-- What a customer spent: the sum of totalPrice over the orders of the list that bear
the customer's name. -/
def spentBy (orders : List (String × OrderData)) (name : String) : ℚ :=
  ((orders.filter (fun o => o.2.customerName == name)).map (fun o => o.2.totalPrice)).sum

/-- The number an amount stands for when it is one, 0 for text. -/
def numberOf : Amount → ℚ
  | .number q => q
  | .text _ _ => 0

/-! Sample data. -/

/-- An environment: the next generated order id and the server time. -/
def sampleEnv : Env := { newId := "order1", now := 100, popupBlocked := false }

/-- A store with two menu items, no orders and two tables, one of them free. -/
def sampleStore : Store :=
  { inventory := [("itemA", { name := "Tea", price := 3, stock := 5, category := none }),
                  ("itemB", { name := "Cake", price := 4, stock := 2, category := some "food" })]
    orders := []
    tables := [("table1", { status := "free", orderId := none, timestamp := 0 }),
               ("table2", { status := "reserved", orderId := none, timestamp := 0 })] }

/-- A complete customer form with table1 selected. -/
def sampleInfo : CustomerInfo :=
  { name := "Ann", phone := "555", payOnDelivery := true, tableId := "table1" }

/-- The ordering screen after loading `sampleStore`, with the given cart and form. -/
def sampleUi (cart : List (String × ℤ)) (info : CustomerInfo) : BuyerState :=
  { items := fetchItems sampleStore.inventory
    cart := cart
    isModalOpen := true
    tables := fetchTables sampleStore.tables
    customerInfo := info }

/-- The store after another screen deleted itemA: the catalog loaded from
`sampleStore` still lists it. -/
def staleStore : Store :=
  { sampleStore with
    inventory := [("itemB", { name := "Cake", price := 4, stock := 2, category := some "food" })] }

/-- The store after another buyer bought three of itemA: its stock is 2, while the
catalog loaded from `sampleStore` still shows 5. -/
def laterStore : Store :=
  { sampleStore with
    inventory := [("itemA", { name := "Tea", price := 3, stock := 2, category := none }),
                  ("itemB", { name := "Cake", price := 4, stock := 2, category := some "food" })] }

/-- A cart with two of itemA and one item that is not in the catalog. -/
def sampleCart : List (String × ℤ) := [("itemA", 2), ("gone", 1)]

/-- The order that `placeOrder` builds from `sampleCart` and `sampleInfo`. -/
def sampleOrder : OrderData :=
  orderData sampleEnv sampleInfo [{ id := "itemA", name := "Tea", price := 3, quantity := 2 }]
    (calculateTotal (fetchItems sampleStore.inventory) sampleCart)

/-! Ordering sessions. -/

/-- What the buyer has set up when pressing the order button, and the environment of
that run: the cart, the form, the free tables listed by the modal. -/
structure Checkout where
  env : Env
  cart : List (String × ℤ)
  customerInfo : CustomerInfo
  tables : List (String × TableData)
  deriving DecidableEq, Repr

/-- One placement of an ordering session. The catalog `items` is the one the previous
placement left on the screen, and the store is the one it left behind: nobody else
writes in between. -/
def checkout (s : Store × BuyerState) (c : Checkout) : Store × BuyerState :=
  ((placeOrder c.env s.1
      { s.2 with cart := c.cart, customerInfo := c.customerInfo, tables := c.tables,
                 isModalOpen := true }).store,
   (placeOrder c.env s.1
      { s.2 with cart := c.cart, customerInfo := c.customerInfo, tables := c.tables,
                 isModalOpen := true }).ui)

/-- A session: placements made one after another on the same screen. -/
def session (s : Store × BuyerState) (cs : List Checkout) : Store × BuyerState :=
  cs.foldl checkout s

/-- Two placements in a row: two itemA, then three itemA and one itemB. -/
def sampleSession : List Checkout :=
  [{ env := sampleEnv, cart := [("itemA", 2)], customerInfo := sampleInfo,
     tables := fetchTables sampleStore.tables },
   { env := { newId := "order2", now := 200, popupBlocked := false }, cart := [("itemA", 3), ("itemB", 1)],
     customerInfo := { sampleInfo with tableId := "" }, tables := [] }]

/-! Runs of the three screens over one store. -/

/-- One handler run that can write the tables collection, with the screen state and
the environment it runs in. -/
inductive Action where
  | bootstrap (env : Env)
  | place (env : Env) (ui : BuyerState)
  | complete (orders : List (String × OrderData)) (id : String)
  | changeStatus (env : Env) (tables : List (String × TableData)) (tableId newStatus : String)
  deriving DecidableEq, Repr

/-- The store after one handler run. -/
def applyAction (store : Store) : Action → Store
  | .bootstrap env => initializeTables env store
  | .place env ui => (placeOrder env store ui).store
  | .complete orders id => (handleCompleteOrder store orders id).store
  | .changeStatus env tables tableId newStatus =>
    (handleStatusChange env store tables none tableId newStatus).store

/-- The store after a sequence of handler runs. -/
def reach (store : Store) (actions : List Action) : Store :=
  actions.foldl applyAction store

/-- The tables collection right after the bootstrap of an empty one. -/
def bootstrapped (env : Env) : List (String × TableData) :=
  (initializeTables env { inventory := [], orders := [], tables := [] }).tables

/-- Whether a handler run, started on this store, parks a linked table: a manual
change, to a status other than `"free"` and `"occupied"`, of a table that carries an
order id at that moment. -/
def parksLinkedTable (store : Store) : Action → Bool
  | .changeStatus _ _ tableId newStatus =>
    !(newStatus == "free" || newStatus == "occupied") &&
      store.tables.any (fun d => d.1 == tableId && d.2.orderId.isSome)
  | _ => false

/-- Whether no handler run of the sequence parks a linked table, each run taken on
the store that the runs before it left. -/
def keepsLinks (store : Store) : List Action → Bool
  | [] => true
  | a :: actions => !parksLinkedTable store a && keepsLinks (applyAction store a) actions

/-- The sample store with the tables collection as the bootstrap creates it. -/
def freshStore : Store := { sampleStore with tables := bootstrapped sampleEnv }

/-- An environment of a later handler run. -/
def laterEnv : Env := { newId := "order2", now := 200, popupBlocked := false }

/-- A placement on table1, its completion, then manual changes of table2 to occupied
and back to free. -/
def sampleRun : List Action :=
  [.place sampleEnv (sampleUi sampleCart sampleInfo),
   .complete [("order1", sampleOrder)] "order1",
   .changeStatus laterEnv [] "table2" "occupied",
   .place laterEnv (sampleUi [("itemB", 1)] { sampleInfo with tableId := "table3" }),
   .changeStatus laterEnv [] "table2" "free"]

/-- A placement on table1 followed by a manual change of table1 to reserved. -/
def parkedRun : List Action :=
  [.place sampleEnv (sampleUi sampleCart sampleInfo),
   .changeStatus laterEnv [] "table1" "reserved"]

/-- A manual change of table2, which carries no order, to reserved, then a placement
on table1. -/
def reservedRun : List Action :=
  [.changeStatus laterEnv [] "table2" "reserved",
   .place sampleEnv (sampleUi sampleCart sampleInfo)]

/-- A store in which table1 is occupied by order1 and table2 is free. -/
def busyStore : Store :=
  { inventory := sampleStore.inventory
    orders := [("order1", sampleOrder)]
    tables := [("table1", { status := "occupied", orderId := some "order1", timestamp := 100 }),
               ("table2", { status := "free", orderId := none, timestamp := 0 })] }

/-- The store `busyStore` after table1's document was deleted. -/
def orphanStore : Store :=
  { busyStore with
    tables := [("table2", { status := "free", orderId := none, timestamp := 0 })] }

/-- A pending order without a table. -/
def counterOrder : OrderData :=
  orderData laterEnv { sampleInfo with tableId := "" }
    [{ id := "itemB", name := "Cake", price := 4, quantity := 1 }] 4

/-- Presses on the ordering screen: plus on itemA twice, plus for an id that is not in
the catalog, plus and then minus on itemB. -/
def pressedRun : List ScreenEvent :=
  [.plus "itemA", .plus "itemA", .plus "gone", .plus "itemB", .minus "itemB"]

/-- A placement of order1 on table1, a manual change of table1 to free, a placement of
order2 on table1, then the completion of order1 from a pending list loaded before. -/
def doubleBookingRun : List Action :=
  [.place sampleEnv (sampleUi sampleCart sampleInfo),
   .changeStatus laterEnv [] "table1" "free",
   .place laterEnv (sampleUi [("itemB", 1)] sampleInfo),
   .complete [("order1", sampleOrder)] "order1"]

/-- A store in which table1 is held by order2 while order1, still pending, names
table1 as well. -/
def sharedTableStore : Store :=
  { inventory := sampleStore.inventory
    orders := [("order1", sampleOrder), ("order2", { sampleOrder with customerName := "Bob" })]
    tables := [("table1", { status := "occupied", orderId := some "order2", timestamp := 200 }),
               ("table2", { status := "free", orderId := none, timestamp := 0 })] }

/-- An authentication service that knows two accounts. -/
def sampleSignIn (email password : String) : Option String :=
  if email = "ann@example.com" ∧ password = "secret" then some "uidAnn"
  else if email = "boss@example.com" ∧ password = "secret" then some "uidBoss"
  else none

/-- A users collection with a buyer and an admin. -/
def sampleUsers : List (String × UserData) :=
  [("uidAnn", { email := "ann@example.com", role := some "buyer" }),
   ("uidBoss", { email := "boss@example.com", role := some "admin" })]

/-- A catalog in which one item has the category named all. -/
def allCategoryItems : List Item :=
  fetchItems [("itemC", { name := "Soup", price := 2, stock := 1, category := some "all" }),
              ("itemA", { name := "Tea", price := 3, stock := 5, category := none })]

/-- A completed order of ten by a customer who gave the name toString. -/
def namedToString : List (String × OrderData) :=
  [("order1", { sampleOrder with customerName := "toString", totalPrice := 10,
                                 status := "completed" })]

/-! Lemmas. -/

theorem scanCart_error_names_item (items : List Item) :
    ∀ (cart : List (String × ℤ)) (ol : List OrderLine) (iu : List InventoryUpdate),
      (∃ e ∈ cart, ∃ item, findItem items e.1 = some item ∧ item.stock < e.2) →
      ∃ e ∈ cart, ∃ item, findItem items e.1 = some item ∧ item.stock < e.2 ∧
        scanCart items cart ol iu = .error (.notEnoughStock item.name item.stock)
  | [], _, _, h => by
    obtain ⟨e, he, _⟩ := h
    cases he
  | (itemId, q) :: rest, ol, iu, h => by
    have hrec : (∃ e ∈ rest, ∃ item, findItem items e.1 = some item ∧ item.stock < e.2) →
        ∀ ol' iu', ∃ e ∈ (itemId, q) :: rest, ∃ item, findItem items e.1 = some item ∧
          item.stock < e.2 ∧
          scanCart items rest ol' iu' = .error (.notEnoughStock item.name item.stock) := by
      intro h' ol' iu'
      obtain ⟨e, he, item, h1, h2, h3⟩ := scanCart_error_names_item items rest ol' iu' h'
      exact ⟨e, List.mem_cons_of_mem _ he, item, h1, h2, h3⟩
    unfold scanCart
    cases hf : findItem items itemId with
    | none =>
      simp only
      apply hrec
      obtain ⟨e, he, item, h1, h2⟩ := h
      rcases List.mem_cons.1 he with rfl | he
      · simp [hf] at h1
      · exact ⟨e, he, item, h1, h2⟩
    | some item =>
      simp only
      by_cases hs : item.stock < q
      · exact ⟨(itemId, q), List.mem_cons_self _ _, item, hf, hs, by simp [hs]⟩
      · simp only [hs, if_false]
        apply hrec
        obtain ⟨e, he, item', h1, h2⟩ := h
        rcases List.mem_cons.1 he with rfl | he
        · simp only [hf, Option.some.injEq] at h1
          subst h1
          exact absurd h2 hs
        · exact ⟨e, he, item', h1, h2⟩

theorem scanCart_ok_of_inStock (items : List Item) :
    ∀ (cart : List (String × ℤ)) (ol : List OrderLine) (iu : List InventoryUpdate),
      CartInStock items cart →
      scanCart items cart ol iu =
        .ok (ol ++ cart.filterMap (lineOf items), iu ++ cart.filterMap (updateOf items))
  | [], _, _, _ => by simp [scanCart]
  | (itemId, q) :: rest, ol, iu, h => by
    have hrest : CartInStock items rest := fun e he => h e (List.mem_cons_of_mem _ he)
    unfold scanCart
    cases hf : findItem items itemId with
    | none =>
      simp only
      rw [scanCart_ok_of_inStock items rest ol iu hrest]
      simp [List.filterMap_cons, lineOf, updateOf, hf]
    | some item =>
      have hq : ¬ item.stock < q := not_lt.2 (h (itemId, q) (List.mem_cons_self _ _) item hf)
      simp only [hq, if_false]
      rw [scanCart_ok_of_inStock items rest _ _ hrest]
      simp [List.filterMap_cons, lineOf, updateOf, hf]

theorem cartInStock_or_short (items : List Item) (cart : List (String × ℤ)) :
    CartInStock items cart ∨
      ∃ e ∈ cart, ∃ item, findItem items e.1 = some item ∧ item.stock < e.2 := by
  by_cases h : ∃ e ∈ cart, ∃ item, findItem items e.1 = some item ∧ item.stock < e.2
  · exact Or.inr h
  · left
    intro e he item hf
    by_contra hlt
    exact h ⟨e, he, item, hf, not_le.1 hlt⟩

theorem foldl_total (items : List Item) :
    ∀ (cart : List (String × ℤ)) (acc : ℚ),
      cart.foldl (fun sum e => sum + lineAmount items e) acc
      = acc + ((cart.filterMap (lineOf items)).map (fun l => l.price * (l.quantity : ℚ))).sum
  | [], acc => by simp
  | e :: rest, acc => by
    rw [List.foldl_cons, foldl_total items rest]
    cases hf : findItem items e.1 with
    | none => simp [List.filterMap_cons, lineOf, lineAmount, hf]
    | some item => simp [List.filterMap_cons, lineOf, lineAmount, hf, add_assoc]

theorem calculateTotal_eq_sum (items : List Item) (cart : List (String × ℤ)) :
    calculateTotal items cart =
      ((cart.filterMap (lineOf items)).map (fun l => l.price * (l.quantity : ℚ))).sum := by
  unfold calculateTotal
  rw [foldl_total]
  simp

theorem updateDoc_of_hasDoc {α : Type} (coll : List (String × α)) (id : String) (f : α → α)
    (h : HasDoc coll id) :
    updateDoc coll id f = some (coll.map (fun d => if d.1 == id then (d.1, f d.2) else d)) := by
  unfold updateDoc
  have : coll.any (fun d => d.1 == id) = true := by
    obtain ⟨d, hd, rfl⟩ := h
    exact List.any_eq_true.2 ⟨d, hd, by simp⟩
  simp [this]

theorem updateDoc_of_not_hasDoc {α : Type} (coll : List (String × α)) (id : String) (f : α → α)
    (h : ¬ HasDoc coll id) : updateDoc coll id f = none := by
  unfold updateDoc
  have : ¬ (coll.any (fun d => d.1 == id) = true) := by
    intro hany
    obtain ⟨d, hd, hid⟩ := List.any_eq_true.1 hany
    exact h ⟨d, hd, by simpa using hid⟩
  simp [this]

theorem hasDoc_map_iff {α : Type} (coll : List (String × α)) (g : String × α → String × α)
    (hg : ∀ d, (g d).1 = d.1) (id : String) : HasDoc (coll.map g) id ↔ HasDoc coll id := by
  constructor
  · rintro ⟨d, hd, rfl⟩
    obtain ⟨c, hc, rfl⟩ := List.mem_map.1 hd
    exact ⟨c, hc, (hg c).symm⟩
  · rintro ⟨d, hd, rfl⟩
    exact ⟨g d, List.mem_map_of_mem g hd, hg d⟩

theorem hasDoc_setStock_iff (inventory : List (String × ItemData)) (u : InventoryUpdate)
    (id : String) : HasDoc (setStock inventory u) id ↔ HasDoc inventory id := by
  unfold setStock
  apply hasDoc_map_iff
  intro d
  split <;> rfl

theorem writeInventory_of_hasDoc :
    ∀ (us : List InventoryUpdate) (inventory : List (String × ItemData)),
      (∀ u ∈ us, HasDoc inventory u.id) →
      writeInventory inventory us = (us.foldl setStock inventory, true)
  | [], _, _ => rfl
  | u :: us, inventory, h => by
    have hu := h u (List.mem_cons_self _ _)
    unfold writeInventory
    rw [updateDoc_of_hasDoc _ _ _ hu]
    simp only [List.foldl_cons]
    exact writeInventory_of_hasDoc us _
      (fun v hv => (hasDoc_setStock_iff inventory u v.id).2 (h v (List.mem_cons_of_mem _ hv)))

theorem hasDoc_of_writeInventory :
    ∀ (us : List InventoryUpdate) (inventory : List (String × ItemData)),
      (writeInventory inventory us).2 = true → ∀ u ∈ us, HasDoc inventory u.id
  | [], _, _ => by simp
  | u :: us, inventory, h => by
    by_cases hu : HasDoc inventory u.id
    · intro v hv
      rcases List.mem_cons.1 hv with rfl | hv
      · exact hu
      · unfold writeInventory at h
        rw [updateDoc_of_hasDoc _ _ _ hu] at h
        exact (hasDoc_setStock_iff inventory u v.id).1
          (hasDoc_of_writeInventory us (setStock inventory u) h v hv)
    · unfold writeInventory at h
      rw [updateDoc_of_not_hasDoc _ _ _ hu] at h
      simp at h

theorem placeOrder_of_scan_error (env : Env) (store : Store) (ui : BuyerState) (a : Alert)
    (h : scanCart ui.items ui.cart [] [] = .error a) :
    placeOrder env store ui = { store := store, ui := ui, alerts := [a], receipt := none } := by
  unfold placeOrder
  rw [h]

theorem placeOrder_of_missing_info (env : Env) (store : Store) (ui : BuyerState)
    (hc : CartInStock ui.items ui.cart)
    (h : ui.customerInfo.name = "" ∨ ui.customerInfo.phone = "") :
    placeOrder env store ui =
      { store := store, ui := ui, alerts := [.fillRequired], receipt := none } := by
  unfold placeOrder
  rw [scanCart_ok_of_inStock _ _ _ _ hc]
  simp only [if_pos h]

theorem placeOrder_of_no_table (env : Env) (store : Store) (ui : BuyerState)
    (hc : CartInStock ui.items ui.cart)
    (hn : ui.customerInfo.name ≠ "") (hp : ui.customerInfo.phone ≠ "")
    (ht : 0 < ui.tables.length ∧ ui.customerInfo.tableId = "") :
    placeOrder env store ui =
      { store := store, ui := ui, alerts := [.selectTable], receipt := none } := by
  unfold placeOrder
  rw [scanCart_ok_of_inStock _ _ _ _ hc]
  have h : ¬ (ui.customerInfo.name = "" ∨ ui.customerInfo.phone = "") := by
    rintro (h | h)
    · exact hn h
    · exact hp h
  simp only [if_neg h, if_pos ht]

theorem placeOrder_of_rejected_write (env : Env) (store : Store) (ui : BuyerState)
    (hc : CartInStock ui.items ui.cart)
    (hn : ui.customerInfo.name ≠ "") (hp : ui.customerInfo.phone ≠ "")
    (ht : ¬ (0 < ui.tables.length ∧ ui.customerInfo.tableId = ""))
    (hw : (writeInventory store.inventory (ui.cart.filterMap (updateOf ui.items))).2 = false) :
    placeOrder env store ui =
      { store :=
          { inventory :=
              (writeInventory store.inventory (ui.cart.filterMap (updateOf ui.items))).1
            orders := store.orders ++
              [(env.newId, orderData env ui.customerInfo (ui.cart.filterMap (lineOf ui.items))
                  (calculateTotal ui.items ui.cart))]
            tables := store.tables }
        ui := ui, alerts := [.failedToPlace], receipt := none } := by
  unfold placeOrder
  rw [scanCart_ok_of_inStock _ _ _ _ hc]
  have h : ¬ (ui.customerInfo.name = "" ∨ ui.customerInfo.phone = "") := by
    rintro (h | h)
    · exact hn h
    · exact hp h
  simp only [if_neg h, if_neg ht, List.nil_append, addDoc]
  generalize writeInventory store.inventory (ui.cart.filterMap (updateOf ui.items)) = w at hw ⊢
  obtain ⟨inv, b⟩ := w
  simp only at hw
  subst hw
  rfl

theorem placeOrder_of_accepted_writes (env : Env) (store : Store) (ui : BuyerState)
    (hc : CartInStock ui.items ui.cart)
    (hn : ui.customerInfo.name ≠ "") (hp : ui.customerInfo.phone ≠ "")
    (ht : ¬ (0 < ui.tables.length ∧ ui.customerInfo.tableId = ""))
    (hw : (writeInventory store.inventory (ui.cart.filterMap (updateOf ui.items))).2 = true) :
    placeOrder env store ui =
      { store :=
          { inventory :=
              (writeInventory store.inventory (ui.cart.filterMap (updateOf ui.items))).1
            orders := store.orders ++
              [(env.newId, orderData env ui.customerInfo (ui.cart.filterMap (lineOf ui.items))
                  (calculateTotal ui.items ui.cart))]
            tables := (occupyTable env store.tables ui.customerInfo.tableId).1 }
        ui := { ui with items := refreshItems ui.items (ui.cart.filterMap (updateOf ui.items))
                        isModalOpen := false
                        cart := [] }
        alerts := (occupyTable env store.tables ui.customerInfo.tableId).2 ++ [.orderPlaced] ++
          (printReceipt env (ui.cart.filterMap (lineOf ui.items))
            (calculateTotal ui.items ui.cart)).2
        receipt := (printReceipt env (ui.cart.filterMap (lineOf ui.items))
          (calculateTotal ui.items ui.cart)).1 } := by
  unfold placeOrder
  rw [scanCart_ok_of_inStock _ _ _ _ hc]
  have h : ¬ (ui.customerInfo.name = "" ∨ ui.customerInfo.phone = "") := by
    rintro (h | h)
    · exact hn h
    · exact hp h
  simp only [if_neg h, if_neg ht, List.nil_append, addDoc]
  generalize writeInventory store.inventory (ui.cart.filterMap (updateOf ui.items)) = w at hw ⊢
  obtain ⟨inv, b⟩ := w
  simp only at hw
  subst hw
  rfl

theorem cartInStock_of_scan_ok (items : List Item) (cart : List (String × ℤ))
    (r : List OrderLine × List InventoryUpdate) (h : scanCart items cart [] [] = .ok r) :
    CartInStock items cart := by
  rcases cartInStock_or_short items cart with hc | hs
  · exact hc
  · obtain ⟨e, _, item, _, _, herr⟩ := scanCart_error_names_item items cart [] [] hs
    rw [herr] at h
    cases h

/-- The five ways a run of `placeOrder` can go. -/
theorem placeOrder_cases (env : Env) (store : Store) (ui : BuyerState) :
    (∃ e ∈ ui.cart, ∃ item, findItem ui.items e.1 = some item ∧ item.stock < e.2 ∧
      placeOrder env store ui =
        { store := store, ui := ui, alerts := [.notEnoughStock item.name item.stock],
          receipt := none }) ∨
    (CartInStock ui.items ui.cart ∧
      ((ui.customerInfo.name = "" ∨ ui.customerInfo.phone = "") ∧
        placeOrder env store ui =
          { store := store, ui := ui, alerts := [.fillRequired], receipt := none } ∨
       (ui.customerInfo.name ≠ "" ∧ ui.customerInfo.phone ≠ "") ∧
        ((0 < ui.tables.length ∧ ui.customerInfo.tableId = "") ∧
          placeOrder env store ui =
            { store := store, ui := ui, alerts := [.selectTable], receipt := none } ∨
         ¬ (0 < ui.tables.length ∧ ui.customerInfo.tableId = "") ∧
          ((writeInventory store.inventory (ui.cart.filterMap (updateOf ui.items))).2 = false ∧
            placeOrder env store ui =
              { store :=
                  { inventory :=
                      (writeInventory store.inventory
                        (ui.cart.filterMap (updateOf ui.items))).1
                    orders := store.orders ++
                      [(env.newId, orderData env ui.customerInfo
                          (ui.cart.filterMap (lineOf ui.items))
                          (calculateTotal ui.items ui.cart))]
                    tables := store.tables }
                ui := ui, alerts := [.failedToPlace], receipt := none } ∨
           (writeInventory store.inventory (ui.cart.filterMap (updateOf ui.items))).2 = true ∧
            placeOrder env store ui =
              { store :=
                  { inventory :=
                      (writeInventory store.inventory
                        (ui.cart.filterMap (updateOf ui.items))).1
                    orders := store.orders ++
                      [(env.newId, orderData env ui.customerInfo
                          (ui.cart.filterMap (lineOf ui.items))
                          (calculateTotal ui.items ui.cart))]
                    tables := (occupyTable env store.tables ui.customerInfo.tableId).1 }
                ui := { ui with
                          items := refreshItems ui.items (ui.cart.filterMap (updateOf ui.items))
                          isModalOpen := false
                          cart := [] }
                alerts :=
                  (occupyTable env store.tables ui.customerInfo.tableId).2 ++ [.orderPlaced] ++
                    (printReceipt env (ui.cart.filterMap (lineOf ui.items))
                      (calculateTotal ui.items ui.cart)).2
                receipt := (printReceipt env (ui.cart.filterMap (lineOf ui.items))
                  (calculateTotal ui.items ui.cart)).1 })))) := by
  rcases cartInStock_or_short ui.items ui.cart with hc | hs
  · right
    refine ⟨hc, ?_⟩
    by_cases hinfo : ui.customerInfo.name = "" ∨ ui.customerInfo.phone = ""
    · exact Or.inl ⟨hinfo, placeOrder_of_missing_info env store ui hc hinfo⟩
    · have hn : ui.customerInfo.name ≠ "" := fun h => hinfo (Or.inl h)
      have hp : ui.customerInfo.phone ≠ "" := fun h => hinfo (Or.inr h)
      refine Or.inr ⟨⟨hn, hp⟩, ?_⟩
      by_cases ht : 0 < ui.tables.length ∧ ui.customerInfo.tableId = ""
      · exact Or.inl ⟨ht, placeOrder_of_no_table env store ui hc hn hp ht⟩
      · refine Or.inr ⟨ht, ?_⟩
        cases hw : (writeInventory store.inventory (ui.cart.filterMap (updateOf ui.items))).2
        · exact Or.inl ⟨rfl, placeOrder_of_rejected_write env store ui hc hn hp ht hw⟩
        · exact Or.inr ⟨rfl, placeOrder_of_accepted_writes env store ui hc hn hp ht hw⟩
  · left
    obtain ⟨e, he, item, hf, hlt, herr⟩ := scanCart_error_names_item ui.items ui.cart [] [] hs
    exact ⟨e, he, item, hf, hlt, placeOrder_of_scan_error env store ui _ herr⟩

/-- What a run of `placeOrder` does to the orders collection: nothing, or one insert of
the order built from the cart lines found in the catalog. -/
theorem placeOrder_orders (env : Env) (store : Store) (ui : BuyerState) :
    (placeOrder env store ui).store.orders = store.orders ∨
    (placeOrder env store ui).store.orders = store.orders ++
      [(env.newId, orderData env ui.customerInfo (ui.cart.filterMap (lineOf ui.items))
          (calculateTotal ui.items ui.cart))] := by
  rcases placeOrder_cases env store ui with
    ⟨_, _, _, _, _, h⟩ | ⟨_, ⟨_, h⟩ | ⟨_, ⟨_, h⟩ | ⟨_, ⟨_, h⟩ | ⟨_, h⟩⟩⟩⟩
  all_goals rw [h]
  all_goals simp

theorem filterMap_lineOf_ids (items : List Item) :
    ∀ cart : List (String × ℤ),
      (cart.filterMap (lineOf items)).map (fun l => l.id) =
        (cart.filter (fun e => (findItem items e.1).isSome)).map Prod.fst
  | [] => rfl
  | e :: rest => by
    cases hf : findItem items e.1 with
    | none => simp [List.filterMap_cons, List.filter_cons, lineOf, hf, filterMap_lineOf_ids items rest]
    | some item =>
      simp [List.filterMap_cons, List.filter_cons, lineOf, hf, filterMap_lineOf_ids items rest]

theorem updates_hasDoc_iff (items : List Item) (inventory : List (String × ItemData))
    (cart : List (String × ℤ)) :
    (∀ u ∈ cart.filterMap (updateOf items), HasDoc inventory u.id) ↔
      ∀ e ∈ cart, (findItem items e.1).isSome → HasDoc inventory e.1 := by
  constructor
  · intro h e he hsome
    obtain ⟨item, hf⟩ := Option.isSome_iff_exists.1 hsome
    exact h ⟨e.1, item.stock - e.2⟩ (List.mem_filterMap.2 ⟨e, he, by simp [updateOf, hf]⟩)
  · intro h u hu
    obtain ⟨e, he, hu⟩ := List.mem_filterMap.1 hu
    cases hf : findItem items e.1 with
    | none => simp [updateOf, hf] at hu
    | some item =>
      simp only [updateOf, hf, Option.map_some', Option.some.injEq] at hu
      subst hu
      exact h e he (by simp [hf])

theorem writeInventory_flag_iff (inventory : List (String × ItemData))
    (us : List InventoryUpdate) :
    (writeInventory inventory us).2 = true ↔ ∀ u ∈ us, HasDoc inventory u.id :=
  ⟨hasDoc_of_writeInventory us inventory,
   fun h => by rw [writeInventory_of_hasDoc us inventory h]⟩

/-- What a run of `placeOrder` shows once the cart and the form pass validation. -/
theorem placeOrder_valid_alerts (env : Env) (store : Store) (ui : BuyerState)
    (hc : CartInStock ui.items ui.cart)
    (hn : ui.customerInfo.name ≠ "") (hp : ui.customerInfo.phone ≠ "")
    (ht : ui.tables ≠ [] → ui.customerInfo.tableId ≠ "") :
    (placeOrder env store ui).store.orders = store.orders ++
      [(env.newId, orderData env ui.customerInfo (ui.cart.filterMap (lineOf ui.items))
          (calculateTotal ui.items ui.cart))] ∧
    ((∀ e ∈ ui.cart, (findItem ui.items e.1).isSome → HasDoc store.inventory e.1) →
      (placeOrder env store ui).alerts =
        (occupyTable env store.tables ui.customerInfo.tableId).2 ++ [.orderPlaced] ++
          (printReceipt env (ui.cart.filterMap (lineOf ui.items))
            (calculateTotal ui.items ui.cart)).2) ∧
    (¬ (∀ e ∈ ui.cart, (findItem ui.items e.1).isSome → HasDoc store.inventory e.1) →
      (placeOrder env store ui).alerts = [.failedToPlace]) := by
  have ht' : ¬ (0 < ui.tables.length ∧ ui.customerInfo.tableId = "") :=
    fun h => ht (List.length_pos.1 h.1) h.2
  cases hw : (writeInventory store.inventory (ui.cart.filterMap (updateOf ui.items))).2
  · have hno : ¬ (∀ e ∈ ui.cart, (findItem ui.items e.1).isSome → HasDoc store.inventory e.1) := by
      intro hall
      have := (writeInventory_flag_iff _ _).2 ((updates_hasDoc_iff _ _ _).2 hall)
      rw [hw] at this
      cases this
    rw [placeOrder_of_rejected_write env store ui hc hn hp ht' hw]
    exact ⟨rfl, fun hall => absurd hall hno, fun _ => rfl⟩
  · have hall := (updates_hasDoc_iff _ _ _).1 ((writeInventory_flag_iff _ _).1 hw)
    rw [placeOrder_of_accepted_writes env store ui hc hn hp ht' hw]
    exact ⟨rfl, fun _ => rfl, fun hno => absurd hall hno⟩

theorem stockOf_cons (d : String × ItemData) (rest : List (String × ItemData)) (x : String) :
    stockOf (d :: rest) x = if d.1 = x then some d.2.stock else stockOf rest x := by
  by_cases h : d.1 = x
  · simp [stockOf, List.find?_cons, h]
  · simp [stockOf, List.find?_cons, h]

theorem setStock_cons (d : String × ItemData) (rest : List (String × ItemData))
    (u : InventoryUpdate) :
    setStock (d :: rest) u =
      (if d.1 = u.id then (d.1, { d.2 with stock := u.newStock }) else d) :: setStock rest u := by
  simp [setStock]

theorem stockOf_setStock_same :
    ∀ (inventory : List (String × ItemData)) (u : InventoryUpdate),
      HasDoc inventory u.id → stockOf (setStock inventory u) u.id = some u.newStock
  | [], _, h => by
    obtain ⟨d, hd, _⟩ := h
    cases hd
  | d :: rest, u, h => by
    rw [setStock_cons, stockOf_cons]
    by_cases hd : d.1 = u.id
    · rw [if_pos hd, if_pos hd]
    · have hrest : HasDoc rest u.id := by
        obtain ⟨c, hc, hcu⟩ := h
        rcases List.mem_cons.1 hc with rfl | hc
        · exact absurd hcu hd
        · exact ⟨c, hc, hcu⟩
      rw [if_neg hd, if_neg hd]
      exact stockOf_setStock_same rest u hrest

theorem stockOf_setStock_other :
    ∀ (inventory : List (String × ItemData)) (u : InventoryUpdate) (x : String),
      x ≠ u.id → stockOf (setStock inventory u) x = stockOf inventory x
  | [], _, _, _ => rfl
  | d :: rest, u, x, hx => by
    rw [setStock_cons, stockOf_cons, stockOf_cons, stockOf_setStock_other rest u x hx]
    by_cases hd : d.1 = u.id
    · have hdx : ¬ d.1 = x := fun h => hx (h ▸ hd)
      rw [if_pos hd, if_neg hdx, if_neg hdx]
    · rw [if_neg hd]

theorem stockOf_foldl_other :
    ∀ (us : List InventoryUpdate) (inventory : List (String × ItemData)) (x : String),
      x ∉ us.map (fun u => u.id) → stockOf (us.foldl setStock inventory) x = stockOf inventory x
  | [], _, _, _ => rfl
  | u :: us, inventory, x, hx => by
    simp only [List.map_cons, List.mem_cons, not_or] at hx
    rw [List.foldl_cons, stockOf_foldl_other us _ x hx.2, stockOf_setStock_other _ _ _ hx.1]

theorem stockOf_foldl_setStock :
    ∀ (us : List InventoryUpdate) (inventory : List (String × ItemData)) (u : InventoryUpdate),
      (us.map (fun v => v.id)).Nodup → u ∈ us → HasDoc inventory u.id →
      stockOf (us.foldl setStock inventory) u.id = some u.newStock
  | [], _, _, _, hu, _ => by cases hu
  | v :: us, inventory, u, hnd, hu, hdoc => by
    simp only [List.map_cons, List.nodup_cons] at hnd
    rw [List.foldl_cons]
    rcases List.mem_cons.1 hu with rfl | hu
    · rw [stockOf_foldl_other us _ _ hnd.1, stockOf_setStock_same _ _ hdoc]
    · exact stockOf_foldl_setStock us _ u hnd.2 hu ((hasDoc_setStock_iff _ _ _).2 hdoc)

theorem filterMap_updateOf_ids (items : List Item) :
    ∀ cart : List (String × ℤ),
      (cart.filterMap (updateOf items)).map (fun u => u.id) =
        (cart.filter (fun e => (findItem items e.1).isSome)).map Prod.fst
  | [] => rfl
  | e :: rest => by
    cases hf : findItem items e.1 with
    | none =>
      simp [List.filterMap_cons, List.filter_cons, updateOf, hf, filterMap_updateOf_ids items rest]
    | some item =>
      simp [List.filterMap_cons, List.filter_cons, updateOf, hf, filterMap_updateOf_ids items rest]

theorem updates_nodup (items : List Item) (cart : List (String × ℤ))
    (h : (cart.map Prod.fst).Nodup) :
    ((cart.filterMap (updateOf items)).map (fun u => u.id)).Nodup := by
  rw [filterMap_updateOf_ids]
  exact h.sublist ((List.filter_sublist _).map _)

/-- A run of `placeOrder` that shows the order-placed alert passed every check and had
every stock write accepted. -/
theorem placeOrder_placed_inv (env : Env) (store : Store) (ui : BuyerState)
    (h : Alert.orderPlaced ∈ (placeOrder env store ui).alerts) :
    CartInStock ui.items ui.cart ∧
    (∀ u ∈ ui.cart.filterMap (updateOf ui.items), HasDoc store.inventory u.id) ∧
    placeOrder env store ui =
      { store :=
          { inventory := (ui.cart.filterMap (updateOf ui.items)).foldl setStock store.inventory
            orders := store.orders ++
              [(env.newId, orderData env ui.customerInfo (ui.cart.filterMap (lineOf ui.items))
                  (calculateTotal ui.items ui.cart))]
            tables := (occupyTable env store.tables ui.customerInfo.tableId).1 }
        ui := { ui with items := refreshItems ui.items (ui.cart.filterMap (updateOf ui.items))
                        isModalOpen := false
                        cart := [] }
        alerts := (occupyTable env store.tables ui.customerInfo.tableId).2 ++ [.orderPlaced] ++
          (printReceipt env (ui.cart.filterMap (lineOf ui.items))
            (calculateTotal ui.items ui.cart)).2
        receipt := (printReceipt env (ui.cart.filterMap (lineOf ui.items))
          (calculateTotal ui.items ui.cart)).1 } := by
  rcases placeOrder_cases env store ui with
    ⟨_, _, _, _, _, h'⟩ | ⟨hc, ⟨_, h'⟩ | ⟨_, ⟨_, h'⟩ | ⟨_, ⟨_, h'⟩ | ⟨hw, h'⟩⟩⟩⟩
  · rw [h'] at h
    simp at h
  · rw [h'] at h
    simp at h
  · rw [h'] at h
    simp at h
  · rw [h'] at h
    simp at h
  · have hdoc := (writeInventory_flag_iff _ _).1 hw
    rw [writeInventory_of_hasDoc _ _ hdoc] at h'
    exact ⟨hc, hdoc, h'⟩

theorem refreshItems_fetchItems_step (inventory : List (String × ItemData))
    (v : InventoryUpdate) (vs : List InventoryUpdate) (hv : v.id ∉ vs.map (fun u => u.id)) :
    refreshItems (fetchItems (setStock inventory v)) vs =
      refreshItems (fetchItems inventory) (v :: vs) := by
  have hnone : vs.find? (fun u => u.id == v.id) = none := by
    apply List.find?_eq_none.2
    intro u hu hid
    exact hv (List.mem_map.2 ⟨u, hu, by simpa using hid⟩)
  unfold refreshItems fetchItems setStock
  rw [List.map_map, List.map_map, List.map_map]
  apply List.map_congr_left
  intro d _
  by_cases hd : d.1 = v.id
  · simp [hd, hnone, List.find?_cons]
  · have hb : (v.id == d.1) = false := by
      simpa using fun h : v.id = d.1 => hd h.symm
    simp [hd, hb, List.find?_cons]

theorem fetchItems_foldl_setStock :
    ∀ (us : List InventoryUpdate) (inventory : List (String × ItemData)),
      (us.map (fun u => u.id)).Nodup →
      fetchItems (us.foldl setStock inventory) = refreshItems (fetchItems inventory) us
  | [], inventory, _ => by
    simp [refreshItems]
  | v :: vs, inventory, h => by
    simp only [List.map_cons, List.nodup_cons] at h
    rw [List.foldl_cons, fetchItems_foldl_setStock vs _ h.2,
      refreshItems_fetchItems_step inventory v vs h.1]

theorem setStock_nonneg (inventory : List (String × ItemData)) (u : InventoryUpdate)
    (hinv : ∀ d ∈ inventory, 0 ≤ d.2.stock) (hu : 0 ≤ u.newStock) :
    ∀ d ∈ setStock inventory u, 0 ≤ d.2.stock := by
  intro d hd
  obtain ⟨c, hc, rfl⟩ := List.mem_map.1 hd
  by_cases hcu : c.1 = u.id
  · simpa [hcu] using hu
  · simpa [hcu] using hinv c hc

theorem foldl_setStock_nonneg :
    ∀ (us : List InventoryUpdate) (inventory : List (String × ItemData)),
      (∀ d ∈ inventory, 0 ≤ d.2.stock) → (∀ u ∈ us, 0 ≤ u.newStock) →
      ∀ d ∈ us.foldl setStock inventory, 0 ≤ d.2.stock
  | [], _, hinv, _ => hinv
  | u :: us, inventory, hinv, hus => by
    rw [List.foldl_cons]
    exact foldl_setStock_nonneg us _
      (setStock_nonneg inventory u hinv (hus u (List.mem_cons_self _ _)))
      (fun v hv => hus v (List.mem_cons_of_mem _ hv))

theorem updates_nonneg (items : List Item) (cart : List (String × ℤ))
    (hc : CartInStock items cart) : ∀ u ∈ cart.filterMap (updateOf items), 0 ≤ u.newStock := by
  intro u hu
  obtain ⟨e, he, hu⟩ := List.mem_filterMap.1 hu
  cases hf : findItem items e.1 with
  | none => simp [updateOf, hf] at hu
  | some item =>
    simp only [updateOf, hf, Option.map_some', Option.some.injEq] at hu
    subst hu
    exact sub_nonneg.2 (hc e he item hf)

theorem findItem_fetchItems_hasDoc (inventory : List (String × ItemData)) (id : String)
    (h : (findItem (fetchItems inventory) id).isSome) : HasDoc inventory id := by
  obtain ⟨item, hf⟩ := Option.isSome_iff_exists.1 h
  have hmem := List.mem_of_find?_eq_some hf
  have hid := List.find?_some hf
  obtain ⟨d, hd, rfl⟩ := List.mem_map.1 hmem
  exact ⟨d, hd, by simpa using hid⟩

/-- One placement keeps the catalog on the screen equal to the store's inventory and
keeps every stock non-negative. -/
theorem placeOrder_keeps_catalog_in_step (env : Env) (store : Store) (ui : BuyerState)
    (hsnap : ui.items = fetchItems store.inventory)
    (hpos : ∀ d ∈ store.inventory, 0 ≤ d.2.stock)
    (hkeys : (ui.cart.map Prod.fst).Nodup) :
    (placeOrder env store ui).ui.items = fetchItems (placeOrder env store ui).store.inventory ∧
    ∀ d ∈ (placeOrder env store ui).store.inventory, 0 ≤ d.2.stock := by
  rcases placeOrder_cases env store ui with
    ⟨_, _, _, _, _, h⟩ | ⟨hc, ⟨_, h⟩ | ⟨_, ⟨_, h⟩ | ⟨_, ⟨hw, h⟩ | ⟨hw, h⟩⟩⟩⟩
  · rw [h]; exact ⟨hsnap, hpos⟩
  · rw [h]; exact ⟨hsnap, hpos⟩
  · rw [h]; exact ⟨hsnap, hpos⟩
  · exfalso
    have hall : ∀ e ∈ ui.cart, (findItem ui.items e.1).isSome → HasDoc store.inventory e.1 := by
      intro e _ hsome
      rw [hsnap] at hsome
      exact findItem_fetchItems_hasDoc _ _ hsome
    have := (writeInventory_flag_iff _ _).2 ((updates_hasDoc_iff _ _ _).2 hall)
    rw [hw] at this
    cases this
  · have hdoc := (writeInventory_flag_iff _ _).1 hw
    rw [writeInventory_of_hasDoc _ _ hdoc] at h
    rw [h]
    refine ⟨?_, foldl_setStock_nonneg _ _ hpos (updates_nonneg _ _ hc)⟩
    show refreshItems ui.items _ = fetchItems _
    rw [fetchItems_foldl_setStock _ _ (updates_nodup ui.items ui.cart hkeys), hsnap]

theorem session_keeps_catalog_in_step :
    ∀ (cs : List Checkout) (s : Store × BuyerState),
      s.2.items = fetchItems s.1.inventory →
      (∀ d ∈ s.1.inventory, 0 ≤ d.2.stock) →
      (∀ c ∈ cs, (c.cart.map Prod.fst).Nodup) →
      (session s cs).2.items = fetchItems (session s cs).1.inventory ∧
      ∀ d ∈ (session s cs).1.inventory, 0 ≤ d.2.stock
  | [], _, hsnap, hpos, _ => ⟨hsnap, hpos⟩
  | c :: cs, s, hsnap, hpos, hkeys => by
    have hstep := placeOrder_keeps_catalog_in_step c.env s.1
      { s.2 with cart := c.cart, customerInfo := c.customerInfo, tables := c.tables,
                 isModalOpen := true } hsnap hpos (hkeys c (List.mem_cons_self _ _))
    exact session_keeps_catalog_in_step cs (checkout s c) hstep.1 hstep.2
      (fun c' hc' => hkeys c' (List.mem_cons_of_mem _ hc'))

theorem occupyTable_of_hasDoc (env : Env) (tables : List (String × TableData)) (tableId : String)
    (hsel : tableId ≠ "") (h : HasDoc tables tableId) :
    occupyTable env tables tableId =
      (tables.map (fun d => if d.1 == tableId then
          (d.1, { d.2 with status := "occupied", orderId := some env.newId,
                           timestamp := env.now })
        else d), []) := by
  unfold occupyTable
  rw [if_neg hsel, updateDoc_of_hasDoc _ _ _ h]

theorem occupyTable_of_not_hasDoc (env : Env) (tables : List (String × TableData))
    (tableId : String) (hsel : tableId ≠ "") (h : ¬ HasDoc tables tableId) :
    occupyTable env tables tableId = (tables, [.tableNotUpdated]) := by
  unfold occupyTable
  rw [if_neg hsel, updateDoc_of_not_hasDoc _ _ _ h]

/-- A run that shows the order-placed alert and not the table warning, with a table
selected, found the table in the store and wrote it. -/
theorem placeOrder_tables_of_all_accepted (env : Env) (store : Store) (ui : BuyerState)
    (hmem : Alert.orderPlaced ∈ (placeOrder env store ui).alerts)
    (hnowarn : Alert.tableNotUpdated ∉ (placeOrder env store ui).alerts)
    (hsel : ui.customerInfo.tableId ≠ "") :
    HasDoc store.tables ui.customerInfo.tableId ∧
    (placeOrder env store ui).store.tables =
      store.tables.map (fun d => if d.1 == ui.customerInfo.tableId then
          (d.1, { d.2 with status := "occupied", orderId := some env.newId,
                           timestamp := env.now })
        else d) := by
  obtain ⟨_, _, heq⟩ := placeOrder_placed_inv env store ui hmem
  by_cases hdoc : HasDoc store.tables ui.customerInfo.tableId
  · refine ⟨hdoc, ?_⟩
    rw [heq]
    show (occupyTable env store.tables ui.customerInfo.tableId).1 = _
    rw [occupyTable_of_hasDoc env _ _ hsel hdoc]
  · exfalso
    apply hnowarn
    rw [heq]
    simp only [occupyTable_of_not_hasDoc env _ _ hsel hdoc]
    simp

/-- A completion whose order is in the store and in the screen's list, linked to a
table that exists: both writes are accepted. -/
theorem handleCompleteOrder_of_linked (store : Store) (orders : List (String × OrderData))
    (id : String) (o : String × OrderData) (tableId : String)
    (hstore : HasDoc store.orders id)
    (hfind : orders.find? (fun order => order.1 == id) = some o)
    (hlink : o.2.tableId = some tableId) (hsel : tableId ≠ "")
    (htable : HasDoc store.tables tableId) :
    handleCompleteOrder store orders id =
      { store :=
          { inventory := store.inventory
            orders := store.orders.map (fun d =>
              if d.1 == id then (d.1, { d.2 with status := "completed" }) else d)
            tables := store.tables.map (fun d =>
              if d.1 == tableId then (d.1, { d.2 with status := "free", orderId := none })
              else d) }
        orders := orders.filter (fun order => order.1 != id)
        alerts := [] } := by
  unfold handleCompleteOrder
  rw [updateDoc_of_hasDoc _ _ _ hstore]
  simp only [hfind, linkedTable, hlink, if_neg hsel]
  rw [updateDoc_of_hasDoc _ _ _ htable]

theorem find_append_fresh {α : Type} (coll : List (String × α)) (id : String) (a : α)
    (hfresh : ¬ HasDoc coll id) :
    (coll ++ [(id, a)]).find? (fun d => d.1 == id) = some (id, a) := by
  have hnone : coll.find? (fun d => d.1 == id) = none := by
    apply List.find?_eq_none.2
    intro d hd hid
    exact hfresh ⟨d, hd, by simpa using hid⟩
  rw [List.find?_append, hnone]
  simp

theorem updateDoc_eq_some {α : Type} (coll coll' : List (String × α)) (id : String) (f : α → α)
    (h : updateDoc coll id f = some coll') :
    coll' = coll.map (fun d => if d.1 == id then (d.1, f d.2) else d) := by
  unfold updateDoc at h
  split at h
  · exact (Option.some.inj h).symm
  · cases h

theorem forall_updateDoc {α : Type} (P : α → Prop) (coll coll' : List (String × α))
    (id : String) (f : α → α) (h : updateDoc coll id f = some coll')
    (hf : ∀ a, P a → P (f a)) (hc : ∀ d ∈ coll, P d.2) : ∀ d ∈ coll', P d.2 := by
  rw [updateDoc_eq_some coll coll' id f h]
  intro d hd
  obtain ⟨c, hcm, rfl⟩ := List.mem_map.1 hd
  split
  · exact hf _ (hc c hcm)
  · exact hc c hcm

theorem forall_occupyTable (P : TableData → Prop) (env : Env)
    (tables : List (String × TableData)) (tableId : String)
    (hf : ∀ t : TableData, P t →
      P { t with status := "occupied", orderId := some env.newId, timestamp := env.now })
    (hc : ∀ d ∈ tables, P d.2) : ∀ d ∈ (occupyTable env tables tableId).1, P d.2 := by
  unfold occupyTable
  split
  · exact hc
  · split
    · next tables' h => exact forall_updateDoc P tables tables' tableId _ h hf hc
    · exact hc

theorem placeOrder_tables (env : Env) (store : Store) (ui : BuyerState) :
    (placeOrder env store ui).store.tables = store.tables ∨
    (placeOrder env store ui).store.tables =
      (occupyTable env store.tables ui.customerInfo.tableId).1 := by
  rcases placeOrder_cases env store ui with
    ⟨_, _, _, _, _, h⟩ | ⟨_, ⟨_, h⟩ | ⟨_, ⟨_, h⟩ | ⟨_, ⟨_, h⟩ | ⟨_, h⟩⟩⟩⟩
  all_goals rw [h]
  all_goals simp

theorem forall_placeOrder_tables (P : TableData → Prop) (env : Env) (store : Store)
    (ui : BuyerState)
    (hf : ∀ t : TableData, P t →
      P { t with status := "occupied", orderId := some env.newId, timestamp := env.now })
    (hc : ∀ d ∈ store.tables, P d.2) :
    ∀ d ∈ (placeOrder env store ui).store.tables, P d.2 := by
  rcases placeOrder_tables env store ui with h | h
  · rw [h]; exact hc
  · rw [h]; exact forall_occupyTable P env store.tables _ hf hc

theorem forall_handleCompleteOrder_tables (P : TableData → Prop) (store : Store)
    (orders : List (String × OrderData)) (id : String)
    (hf : ∀ t : TableData, P t → P { t with status := "free", orderId := none })
    (hc : ∀ d ∈ store.tables, P d.2) :
    ∀ d ∈ (handleCompleteOrder store orders id).store.tables, P d.2 := by
  unfold handleCompleteOrder
  split
  · exact hc
  · simp only
    split
    · split
      · next tables' h => exact forall_updateDoc P store.tables tables' _ _ h hf hc
      · exact hc
    · exact hc

theorem forall_handleStatusChange_tables (P : TableData → Prop) (env : Env) (store : Store)
    (tables : List (String × TableData)) (editing : Option String) (tableId newStatus : String)
    (hf : ∀ t : TableData, P t → P (applyStatus env newStatus t))
    (hc : ∀ d ∈ store.tables, P d.2) :
    ∀ d ∈ (handleStatusChange env store tables editing tableId newStatus).store.tables,
      P d.2 := by
  unfold handleStatusChange
  split
  · exact hc
  · next tables' h => exact forall_updateDoc P store.tables tables' _ _ h hf hc

theorem forall_setDoc {α : Type} (P : α → Prop) (coll : List (String × α)) (id : String)
    (fields : α) (hnew : P fields) (hc : ∀ d ∈ coll, P d.2) :
    ∀ d ∈ setDoc coll id fields, P d.2 := by
  unfold setDoc
  split
  · intro d hd
    obtain ⟨c, hcm, rfl⟩ := List.mem_map.1 hd
    split
    · exact hnew
    · exact hc c hcm
  · intro d hd
    rcases List.mem_append.1 hd with h | h
    · exact hc d h
    · rw [List.mem_singleton.1 h]
      exact hnew

theorem forall_foldl_setDoc {α : Type} (P : α → Prop) (fields : α) (hnew : P fields) :
    ∀ (ids : List String) (coll : List (String × α)), (∀ d ∈ coll, P d.2) →
      ∀ d ∈ ids.foldl (fun c id => setDoc c id fields) coll, P d.2
  | [], _, hc => hc
  | id :: ids, coll, hc => by
    rw [List.foldl_cons]
    exact forall_foldl_setDoc P fields hnew ids _ (forall_setDoc P coll id fields hnew hc)

theorem forall_initializeTables (P : TableData → Prop) (env : Env) (store : Store)
    (hnew : P { status := "free", orderId := none, timestamp := env.now })
    (hc : ∀ d ∈ store.tables, P d.2) :
    ∀ d ∈ (initializeTables env store).tables, P d.2 := by
  unfold initializeTables
  split
  · exact forall_foldl_setDoc P _ hnew defaultTables store.tables hc
  · exact hc

/-- Every handler run keeps each free table without an order link. -/
theorem applyAction_free_unlinked (store : Store) (a : Action)
    (hc : ∀ d ∈ store.tables, d.2.status = "free" → d.2.orderId = none) :
    ∀ d ∈ (applyAction store a).tables, d.2.status = "free" → d.2.orderId = none := by
  cases a with
  | bootstrap env =>
    exact forall_initializeTables (fun t => t.status = "free" → t.orderId = none) env store
      (fun _ => rfl) hc
  | place env ui =>
    exact forall_placeOrder_tables (fun t => t.status = "free" → t.orderId = none) env store ui
      (fun _ _ h => by simp at h) hc
  | complete orders id =>
    exact forall_handleCompleteOrder_tables (fun t => t.status = "free" → t.orderId = none)
      store orders id (fun _ _ _ => rfl) hc
  | changeStatus env tables tableId newStatus =>
    exact forall_handleStatusChange_tables (fun t => t.status = "free" → t.orderId = none)
      env store tables none tableId newStatus
      (fun t _ h => by
        have h' : newStatus = "free" := h
        simp [applyStatus, h']) hc

theorem reach_free_unlinked :
    ∀ (actions : List Action) (store : Store),
      (∀ d ∈ store.tables, d.2.status = "free" → d.2.orderId = none) →
      ∀ d ∈ (reach store actions).tables, d.2.status = "free" → d.2.orderId = none
  | [], _, hc => hc
  | a :: actions, store, hc =>
    reach_free_unlinked actions (applyAction store a) (applyAction_free_unlinked store a hc)

theorem bootstrapped_rows (env : Env) :
    ∀ d ∈ bootstrapped env, d.2.status = "free" ∧ d.2.orderId = none := by
  exact forall_initializeTables (fun t => t.status = "free" ∧ t.orderId = none) env
    { inventory := [], orders := [], tables := [] } ⟨rfl, rfl⟩ (fun _ h => by cases h)

/-- Every handler run that does not park a linked table keeps each linked table
occupied. -/
theorem applyAction_linked_occupied (store : Store) (a : Action)
    (ha : parksLinkedTable store a = false)
    (hc : ∀ d ∈ store.tables, d.2.orderId ≠ none → d.2.status = "occupied") :
    ∀ d ∈ (applyAction store a).tables, d.2.orderId ≠ none → d.2.status = "occupied" := by
  cases a with
  | bootstrap env =>
    exact forall_initializeTables (fun t => t.orderId ≠ none → t.status = "occupied") env store
      (fun h => absurd rfl h) hc
  | place env ui =>
    exact forall_placeOrder_tables (fun t => t.orderId ≠ none → t.status = "occupied") env
      store ui (fun _ _ _ => rfl) hc
  | complete orders id =>
    exact forall_handleCompleteOrder_tables (fun t => t.orderId ≠ none → t.status = "occupied")
      store orders id (fun _ _ h => absurd rfl h) hc
  | changeStatus env tables tableId newStatus =>
    show ∀ d ∈ (handleStatusChange env store tables none tableId newStatus).store.tables, _
    unfold handleStatusChange
    split
    · exact hc
    · next tables' h =>
      rw [updateDoc_eq_some _ _ _ _ h]
      intro d hd hlink
      obtain ⟨c, hcm, rfl⟩ := List.mem_map.1 hd
      by_cases hid : (c.1 == tableId) = true
      · rw [if_pos hid] at hlink ⊢
        by_cases hfree : newStatus = "free"
        · simp [applyStatus, hfree] at hlink
        · by_cases hocc : newStatus = "occupied"
          · simp [applyStatus, hocc]
          · exfalso
            have hany : store.tables.any (fun d => d.1 == tableId && d.2.orderId.isSome) =
                false := by
              simpa [parksLinkedTable, hfree, hocc] using ha
            have hrow := List.any_eq_false.1 hany c hcm
            have hnone : c.2.orderId = none := by
              cases ho : c.2.orderId with
              | none => rfl
              | some x => simp [hid, ho] at hrow
            apply hlink
            simp [applyStatus, hfree, hnone]
      · rw [if_neg hid] at hlink ⊢
        exact hc c hcm hlink

/-- A handler run that parks a linked table leaves a linked table that is not
occupied. -/
theorem applyAction_parks_linked (store : Store) (a : Action)
    (ha : parksLinkedTable store a = true) :
    ¬ ∀ d ∈ (applyAction store a).tables, d.2.orderId ≠ none → d.2.status = "occupied" := by
  cases a with
  | bootstrap env => simp [parksLinkedTable] at ha
  | place env ui => simp [parksLinkedTable] at ha
  | complete orders id => simp [parksLinkedTable] at ha
  | changeStatus env tables tableId newStatus =>
    simp only [parksLinkedTable, Bool.and_eq_true, Bool.not_eq_true', Bool.or_eq_false_iff,
      beq_eq_false_iff_ne, ne_eq, List.any_eq_true] at ha
    obtain ⟨⟨hfree, hocc⟩, c, hcm, hid, hsome⟩ := ha
    have hdoc : HasDoc store.tables tableId := ⟨c, hcm, by simpa using hid⟩
    intro hall
    have hrun : (applyAction store (.changeStatus env tables tableId newStatus)).tables =
        store.tables.map (fun d =>
          if d.1 == tableId then (d.1, applyStatus env newStatus d.2) else d) := by
      show (handleStatusChange env store tables none tableId newStatus).store.tables = _
      unfold handleStatusChange
      rw [updateDoc_of_hasDoc _ _ _ hdoc]
    have hmem : (c.1, applyStatus env newStatus c.2) ∈
        (applyAction store (.changeStatus env tables tableId newStatus)).tables := by
      rw [hrun]
      exact List.mem_map.2 ⟨c, hcm, by rw [if_pos hid]⟩
    have hlink : (applyStatus env newStatus c.2).orderId ≠ none := by
      obtain ⟨x, hx⟩ := Option.isSome_iff_exists.1 hsome
      simp [applyStatus, hfree, hx]
    exact hocc (hall _ hmem hlink)

/-- Along a run from a store in which every linked table is occupied, every linked
table is occupied after every step exactly when no step parks a linked table. -/
theorem reach_linked_occupied_iff :
    ∀ (actions : List Action) (store : Store),
      (∀ d ∈ store.tables, d.2.orderId ≠ none → d.2.status = "occupied") →
      ((∀ k, ∀ d ∈ (reach store (actions.take k)).tables,
          d.2.orderId ≠ none → d.2.status = "occupied") ↔
        keepsLinks store actions = true)
  | [], store, hc => by
    simp only [List.take_nil, keepsLinks, iff_true]
    exact fun _ => hc
  | a :: actions, store, hc => by
    constructor
    · intro hall
      have hstep : parksLinkedTable store a = false := by
        cases hpa : parksLinkedTable store a with
        | false => rfl
        | true => exact absurd (hall 1) (applyAction_parks_linked store a hpa)
      have hc' := applyAction_linked_occupied store a hstep hc
      have hrest := (reach_linked_occupied_iff actions (applyAction store a) hc').1
        (fun k => hall (k + 1))
      simp [keepsLinks, hstep, hrest]
    · intro hkeep
      simp only [keepsLinks, Bool.and_eq_true, Bool.not_eq_true'] at hkeep
      have hc' := applyAction_linked_occupied store a hkeep.1 hc
      have hrest := (reach_linked_occupied_iff actions (applyAction store a) hc').2 hkeep.2
      intro k
      cases k with
      | zero => exact hc
      | succ k => exact hrest k

theorem map_updateDoc_of_fixed {α β : Type} (g : α → β) (coll coll' : List (String × α))
    (id : String) (f : α → α) (h : updateDoc coll id f = some coll')
    (hg : ∀ a, g (f a) = g a) :
    coll'.map (fun d => (d.1, g d.2)) = coll.map (fun d => (d.1, g d.2)) := by
  rw [updateDoc_eq_some coll coll' id f h, List.map_map]
  apply List.map_congr_left
  intro d _
  by_cases hd : d.1 = id
  · simp [hd, hg]
  · simp [hd]

/-- The table release of `handleCompleteOrder` leaves every table's timestamp as it was. -/
theorem handleCompleteOrder_keeps_timestamps (store : Store)
    (orders : List (String × OrderData)) (id : String) :
    (handleCompleteOrder store orders id).store.tables.map (fun d => (d.1, d.2.timestamp)) =
      store.tables.map (fun d => (d.1, d.2.timestamp)) := by
  unfold handleCompleteOrder
  split
  · rfl
  · simp only
    split
    · split
      · next tables' h =>
        exact map_updateDoc_of_fixed (fun t : TableData => t.timestamp) store.tables tables' _ _ h
          (fun _ => rfl)
      · rfl
    · rfl

theorem initializeTables_of_nonempty (env : Env) (store : Store) (h : store.tables ≠ []) :
    initializeTables env store = store := by
  unfold initializeTables
  have : store.tables.isEmpty = false := by
    cases hs : store.tables with
    | nil => exact absurd hs h
    | cons _ _ => rfl
  simp [this]

theorem initializeTables_tables_ne_nil (env : Env) (store : Store) :
    (initializeTables env store).tables ≠ [] := by
  cases hs : store.tables with
  | nil =>
    unfold initializeTables
    rw [hs]
    simp [defaultTables, setDoc]
  | cons d rest =>
    rw [initializeTables_of_nonempty env store (by rw [hs]; simp), hs]
    simp

theorem stockOf_writeInventory_other :
    ∀ (us : List InventoryUpdate) (inventory : List (String × ItemData)) (x : String),
      x ∉ us.map (fun u => u.id) →
      stockOf (writeInventory inventory us).1 x = stockOf inventory x
  | [], _, _, _ => rfl
  | u :: us, inventory, x, hx => by
    simp only [List.map_cons, List.mem_cons, not_or] at hx
    by_cases hu : HasDoc inventory u.id
    · unfold writeInventory
      rw [updateDoc_of_hasDoc _ _ _ hu]
      have h1 := stockOf_writeInventory_other us (setStock inventory u) x hx.2
      rw [stockOf_setStock_other _ _ _ hx.1] at h1
      exact h1
    · unfold writeInventory
      rw [updateDoc_of_not_hasDoc _ _ _ hu]

theorem placeOrder_inventory (env : Env) (store : Store) (ui : BuyerState) :
    (placeOrder env store ui).store.inventory = store.inventory ∨
    (placeOrder env store ui).store.inventory =
      (writeInventory store.inventory (ui.cart.filterMap (updateOf ui.items))).1 := by
  rcases placeOrder_cases env store ui with
    ⟨_, _, _, _, _, h⟩ | ⟨_, ⟨_, h⟩ | ⟨_, ⟨_, h⟩ | ⟨_, ⟨_, h⟩ | ⟨_, h⟩⟩⟩⟩
  all_goals rw [h]
  all_goals simp

theorem scanCart_filter_found (items : List Item) :
    ∀ (cart : List (String × ℤ)) (ol : List OrderLine) (iu : List InventoryUpdate),
      scanCart items (cart.filter (fun e => (findItem items e.1).isSome)) ol iu =
        scanCart items cart ol iu
  | [], _, _ => rfl
  | (itemId, q) :: rest, ol, iu => by
    cases hf : findItem items itemId with
    | none =>
      rw [List.filter_cons_of_neg (by simp [hf])]
      conv_rhs => unfold scanCart
      simp only [hf]
      exact scanCart_filter_found items rest ol iu
    | some item =>
      rw [List.filter_cons_of_pos (by simp [hf])]
      unfold scanCart
      simp only [hf]
      split
      · rfl
      · exact scanCart_filter_found items rest _ _

theorem foldl_total_filter_found (items : List Item) :
    ∀ (cart : List (String × ℤ)) (acc : ℚ),
      (cart.filter (fun e => (findItem items e.1).isSome)).foldl
          (fun sum e => sum + lineAmount items e) acc =
        cart.foldl (fun sum e => sum + lineAmount items e) acc
  | [], _ => rfl
  | e :: rest, acc => by
    cases hf : findItem items e.1 with
    | none =>
      rw [List.filter_cons_of_neg (by simp [hf]), List.foldl_cons,
        foldl_total_filter_found items rest acc]
      simp [lineAmount, hf]
    | some item =>
      rw [List.filter_cons_of_pos (by simp [hf]), List.foldl_cons, List.foldl_cons,
        foldl_total_filter_found items rest]

theorem calculateTotal_filter_found (items : List Item) (cart : List (String × ℤ)) :
    calculateTotal items (cart.filter (fun e => (findItem items e.1).isSome)) =
      calculateTotal items cart :=
  foldl_total_filter_found items cart 0

/-- Cart entries whose item is not in the catalog change nothing in what a run of
`placeOrder` writes, shows and prints. -/
theorem placeOrder_filter_found (env : Env) (store : Store) (ui : BuyerState) :
    (placeOrder env store
        { ui with cart := ui.cart.filter (fun e => (findItem ui.items e.1).isSome) }).store =
      (placeOrder env store ui).store ∧
    (placeOrder env store
        { ui with cart := ui.cart.filter (fun e => (findItem ui.items e.1).isSome) }).alerts =
      (placeOrder env store ui).alerts ∧
    (placeOrder env store
        { ui with cart := ui.cart.filter (fun e => (findItem ui.items e.1).isSome) }).receipt =
      (placeOrder env store ui).receipt := by
  unfold placeOrder
  simp only [scanCart_filter_found, calculateTotal_filter_found]
  split
  · exact ⟨rfl, rfl, rfl⟩
  · split
    · exact ⟨rfl, rfl, rfl⟩
    · split
      · exact ⟨rfl, rfl, rfl⟩
      · split <;> exact ⟨rfl, rfl, rfl⟩

theorem not_mem_update_ids_of_not_found (items : List Item) (cart : List (String × ℤ))
    (x : String) (h : findItem items x = none) :
    x ∉ (cart.filterMap (updateOf items)).map (fun u => u.id) := by
  rw [filterMap_updateOf_ids]
  intro hx
  obtain ⟨e, he, rfl⟩ := List.mem_map.1 hx
  have := (List.mem_filter.1 he).2
  simp [h] at this

theorem inserted_order_eq (env : Env) (store : Store) (ui : BuyerState) (id : String)
    (o : OrderData) (ho : (placeOrder env store ui).store.orders = store.orders ++ [(id, o)]) :
    id = env.newId ∧
    o = orderData env ui.customerInfo (ui.cart.filterMap (lineOf ui.items))
      (calculateTotal ui.items ui.cart) := by
  rcases placeOrder_orders env store ui with h0 | h1
  · rw [h0] at ho
    have := congrArg List.length ho
    simp at this
  · rw [h1] at ho
    have h2 := List.append_cancel_left ho
    simp only [List.cons.injEq, Prod.mk.injEq, and_true] at h2
    exact ⟨h2.1.symm, h2.2.symm⟩

/-- The low-stock count of the dashboard is 0 on every inventory collection. -/
theorem lowStockItems_eq_zero (inventory : List (String × ItemData)) :
    lowStockItems inventory = 0 := by
  unfold lowStockItems
  rw [List.length_eq_zero, List.filter_eq_nil_iff]
  intro item _
  simp [numberField, belowTen]

theorem objGet_nil {α : Type} (k : String) : objGet ([] : List (String × α)) k = none := rfl

theorem objGet_cons {α : Type} (e : String × α) (rest : List (String × α)) (k : String) :
    objGet (e :: rest) k = if e.1 = k then some e.2 else objGet rest k := by
  by_cases h : e.1 = k
  · simp [objGet, List.find?_cons, h]
  · simp [objGet, List.find?_cons, h]

theorem objGet_eq_none_iff {α : Type} :
    ∀ (obj : List (String × α)) (k : String), objGet obj k = none ↔ ∀ e ∈ obj, e.1 ≠ k
  | [], k => by simp [objGet_nil]
  | e :: rest, k => by
    rw [objGet_cons]
    by_cases h : e.1 = k
    · simp [h]
    · simp [h, objGet_eq_none_iff rest k]

theorem objGet_map_set {α : Type} (k : String) (v : α) :
    ∀ (obj : List (String × α)) (x : String),
      objGet (obj.map (fun e => if e.1 == k then (e.1, v) else e)) x =
        if x = k then (objGet obj k).map (fun _ => v) else objGet obj x
  | [], x => by simp [objGet_nil]
  | e :: rest, x => by
    rw [List.map_cons, objGet_cons, objGet_map_set k v rest x]
    by_cases hek : e.1 = k
    · by_cases hxk : x = k
      · simp [hek, hxk, objGet_cons]
      · have hkx : ¬ k = x := fun h => hxk h.symm
        simp [hek, hxk, hkx, objGet_cons]
    · by_cases hxk : x = k
      · have hex : ¬ e.1 = x := fun h => hek (h.trans hxk)
        simp [hek, hxk, objGet_cons]
      · simp [hek, hxk, objGet_cons]

theorem objGet_append_single {α : Type} (k : String) (v : α) :
    ∀ (obj : List (String × α)) (x : String),
      objGet (obj ++ [(k, v)]) x =
        match objGet obj x with
        | some a => some a
        | none => if k = x then some v else none
  | [], x => by simp [objGet_nil, objGet_cons]
  | e :: rest, x => by
    rw [List.cons_append, objGet_cons, objGet_cons, objGet_append_single k v rest x]
    by_cases h : e.1 = x
    · simp [h]
    · simp [h]

theorem objGet_objSet_same {α : Type} (obj : List (String × α)) (k : String) (v : α) :
    objGet (objSet obj k v) k = some v := by
  unfold objSet
  split
  · next hany =>
    obtain ⟨e, he, hek⟩ := List.any_eq_true.1 hany
    rw [objGet_map_set]
    cases hg : objGet obj k with
    | none => exact absurd (by simpa using hek) ((objGet_eq_none_iff obj k).1 hg e he)
    | some a => simp
  · next hany =>
    have hnone : objGet obj k = none := by
      rw [objGet_eq_none_iff]
      intro e he hek
      exact hany (List.any_eq_true.2 ⟨e, he, by simpa using hek⟩)
    rw [objGet_append_single, hnone]
    simp

theorem objGet_objSet_other {α : Type} (obj : List (String × α)) (k x : String) (v : α)
    (hx : x ≠ k) : objGet (objSet obj k v) x = objGet obj x := by
  unfold objSet
  split
  · rw [objGet_map_set, if_neg hx]
  · rw [objGet_append_single]
    cases objGet obj x with
    | none => simp [Ne.symm hx]
    | some a => rfl

theorem objGet_objDelete_same {α : Type} (obj : List (String × α)) (k : String) :
    objGet (objDelete obj k) k = none := by
  rw [objGet_eq_none_iff]
  intro e he
  have := (List.mem_filter.1 he).2
  simpa using this

theorem objGet_objDelete_other {α : Type} (k x : String) (hx : x ≠ k) :
    ∀ obj : List (String × α), objGet (objDelete obj k) x = objGet obj x
  | [] => rfl
  | e :: rest => by
    have ih := objGet_objDelete_other k x hx rest
    unfold objDelete at ih ⊢
    by_cases hek : e.1 = k
    · have hex : ¬ e.1 = x := fun h => hx (h ▸ hek)
      rw [List.filter_cons_of_neg (by simp [hek]), ih, objGet_cons, if_neg hex]
    · rw [List.filter_cons_of_pos (by simp [hek]), objGet_cons, objGet_cons, ih]

theorem forall_objSet {α : Type} (P : α → Prop) (obj : List (String × α)) (k : String) (v : α)
    (hv : P v) (hobj : ∀ e ∈ obj, P e.2) : ∀ e ∈ objSet obj k v, P e.2 := by
  unfold objSet
  split
  · intro e he
    obtain ⟨c, hc, rfl⟩ := List.mem_map.1 he
    split
    · exact hv
    · exact hobj c hc
  · intro e he
    rcases List.mem_append.1 he with h | h
    · exact hobj e h
    · rw [List.mem_singleton.1 h]
      exact hv

theorem foldl_newSet_spec :
    ∀ (xs seen : List String), seen.Nodup →
      (xs.foldl (fun seen x => if x ∈ seen then seen else seen ++ [x]) seen).Nodup ∧
      ∀ c, c ∈ xs.foldl (fun seen x => if x ∈ seen then seen else seen ++ [x]) seen ↔
        c ∈ seen ∨ c ∈ xs
  | [], seen, h => ⟨h, fun c => by simp⟩
  | x :: xs, seen, h => by
    rw [List.foldl_cons]
    by_cases hx : x ∈ seen
    · rw [if_pos hx]
      obtain ⟨h1, h2⟩ := foldl_newSet_spec xs seen h
      refine ⟨h1, fun c => ?_⟩
      rw [h2 c, List.mem_cons]
      constructor
      · rintro (h | h)
        · exact Or.inl h
        · exact Or.inr (Or.inr h)
      · rintro (h | h | h)
        · exact Or.inl h
        · exact Or.inl (h ▸ hx)
        · exact Or.inr h
    · rw [if_neg hx]
      have hnd : (seen ++ [x]).Nodup := by
        rw [List.nodup_append]
        exact ⟨h, List.nodup_singleton x, by
          intro a ha hb
          rw [List.mem_singleton] at hb
          exact hx (hb ▸ ha)⟩
      obtain ⟨h1, h2⟩ := foldl_newSet_spec xs (seen ++ [x]) hnd
      refine ⟨h1, fun c => ?_⟩
      rw [h2 c, List.mem_append, List.mem_singleton, List.mem_cons]
      constructor
      · rintro ((h | h) | h)
        · exact Or.inl h
        · exact Or.inr (Or.inl h)
        · exact Or.inr (Or.inr h)
      · rintro (h | h | h)
        · exact Or.inl (Or.inl h)
        · exact Or.inl (Or.inr h)
        · exact Or.inr h

theorem newSet_nodup (xs : List String) : (newSet xs).Nodup :=
  (foldl_newSet_spec xs [] List.nodup_nil).1

theorem mem_newSet (xs : List String) (c : String) : c ∈ newSet xs ↔ c ∈ xs := by
  unfold newSet
  rw [(foldl_newSet_spec xs [] List.nodup_nil).2 c]
  simp

theorem objSet_keys_nodup {α : Type} (obj : List (String × α)) (k : String) (v : α)
    (h : (obj.map Prod.fst).Nodup) : ((objSet obj k v).map Prod.fst).Nodup := by
  unfold objSet
  split
  · have : (obj.map (fun e => if e.1 == k then (e.1, v) else e)).map Prod.fst =
        obj.map Prod.fst := by
      rw [List.map_map]
      apply List.map_congr_left
      intro e _
      simp only [Function.comp]
      split <;> rfl
    rw [this]
    exact h
  · next hany =>
    rw [List.map_append, List.nodup_append]
    refine ⟨h, List.nodup_singleton _, ?_⟩
    intro a ha hb
    simp only [List.map_cons, List.map_nil, List.mem_singleton] at hb
    obtain ⟨e, he, rfl⟩ := List.mem_map.1 ha
    exact hany (List.any_eq_true.2 ⟨e, he, by simpa using hb⟩)

theorem objGet_of_mem_nodup {α : Type} :
    ∀ (obj : List (String × α)) (e : String × α), (obj.map Prod.fst).Nodup → e ∈ obj →
      objGet obj e.1 = some e.2
  | [], _, _, he => by cases he
  | c :: rest, e, hnd, he => by
    simp only [List.map_cons, List.nodup_cons] at hnd
    rw [objGet_cons]
    rcases List.mem_cons.1 he with rfl | he
    · simp
    · have hne : ¬ c.1 = e.1 := fun h => hnd.1 (h ▸ List.mem_map_of_mem Prod.fst he)
      rw [if_neg hne]
      exact objGet_of_mem_nodup rest e hnd.2 he

theorem mem_of_objGet {α : Type} (obj : List (String × α)) (k : String) (a : α)
    (h : objGet obj k = some a) : (k, a) ∈ obj := by
  unfold objGet at h
  cases hf : obj.find? (fun e => e.1 == k) with
  | none => simp [hf] at h
  | some e =>
    simp only [hf, Option.map_some', Option.some.injEq] at h
    have hk : e.1 = k := by simpa using List.find?_some hf
    have hm := List.mem_of_find?_eq_some hf
    rw [← hk, ← h]
    exact hm

theorem spentBy_append (orders : List (String × OrderData)) (o : String × OrderData)
    (name : String) :
    spentBy (orders ++ [o]) name =
      spentBy orders name + if o.2.customerName = name then o.2.totalPrice else 0 := by
  unfold spentBy
  rw [List.filter_append, List.map_append, List.sum_append]
  by_cases h : o.2.customerName = name
  · simp [h]
  · simp [h]

theorem spentBy_eq_zero (orders : List (String × OrderData)) (name : String)
    (h : ∀ o ∈ orders, o.2.customerName ≠ name) : spentBy orders name = 0 := by
  unfold spentBy
  have : orders.filter (fun o => o.2.customerName == name) = [] := by
    rw [List.filter_eq_nil_iff]
    intro o ho
    simpa using h o ho
  rw [this]
  rfl

/-- A name under which nothing is inherited is not `__proto__`. -/
theorem inheritedText_proto_ne {name : String} (h : inheritedText name = none) :
    name ≠ "__proto__" := by
  intro hn
  rw [hn] at h
  exact absurd h (by decide)

theorem customerSpending_append (orders : List (String × OrderData)) (o : String × OrderData) :
    customerSpending (orders ++ [o]) =
      assign (customerSpending orders) o.2.customerName
        (plus (spentSoFar (customerSpending orders) o.2.customerName) o.2.totalPrice) := by
  unfold customerSpending
  rw [List.foldl_append]
  rfl

/-- When no customer name of the orders is the name of a member inherited from
`Object.prototype`, the object `customerSpending` has one key per customer name, with
the customer's total as value. -/
theorem customerSpending_spec (orders : List (String × OrderData))
    (hplain : ∀ o ∈ orders, inheritedText o.2.customerName = none) :
    ((customerSpending orders).map Prod.fst).Nodup ∧
    (∀ n a, objGet (customerSpending orders) n = some a → a = .number (spentBy orders n)) ∧
    (∀ n, objGet (customerSpending orders) n = none → ∀ o ∈ orders, o.2.customerName ≠ n) := by
  induction orders using List.reverseRecOn with
  | nil =>
    refine ⟨List.nodup_nil, ?_, ?_⟩
    · intro n a h
      simp [customerSpending, objGet] at h
    · intro n _ o ho
      cases ho
  | append_singleton orders o ih =>
    obtain ⟨hnd, hval, hnone⟩ := ih (fun o' ho' => hplain o' (List.mem_append_left _ ho'))
    have hp := hplain o (List.mem_append_right _ (List.mem_singleton_self _))
    have hsofar : spentSoFar (customerSpending orders) o.2.customerName =
        .number (spentBy orders o.2.customerName) := by
      unfold spentSoFar
      cases hg : objGet (customerSpending orders) o.2.customerName with
      | none =>
        simp only [hp]
        rw [spentBy_eq_zero orders _ (hnone _ hg)]
      | some v =>
        have hv := hval _ _ hg
        subst hv
        by_cases hz : spentBy orders o.2.customerName = 0
        · simp [hz]
        · simp [hz]
    rw [customerSpending_append, hsofar]
    unfold assign plus
    rw [if_neg (inheritedText_proto_ne hp)]
    refine ⟨objSet_keys_nodup _ _ _ hnd, ?_, ?_⟩
    · intro n a h
      rw [spentBy_append]
      by_cases hn : n = o.2.customerName
      · subst hn
        rw [objGet_objSet_same] at h
        simp only [Option.some.injEq] at h
        simp [← h]
      · rw [objGet_objSet_other _ _ _ _ hn] at h
        have hn' : ¬ o.2.customerName = n := fun h => hn h.symm
        simp [hn', hval n a h]
    · intro n h o' ho'
      have hn : n ≠ o.2.customerName := by
        rintro rfl
        rw [objGet_objSet_same] at h
        cases h
      rw [objGet_objSet_other _ _ _ _ hn] at h
      rcases List.mem_append.1 ho' with hm | hm
      · exact hnone n h o' hm
      · rw [List.mem_singleton.1 hm]
        exact fun h' => hn h'.symm

/-- Sorting entries that all hold numbers puts them in non-increasing order. -/
theorem sortedSpending_pairwise (cs : List (String × Amount))
    (hnum : ∀ e ∈ cs, e.2 = .number (numberOf e.2)) :
    (cs.mergeSort staysBefore).Pairwise (fun a b => numberOf b.2 ≤ numberOf a.2) := by
  have hmap := @List.map_mergeSort (String × Amount) ℚ staysBefore
    (fun x y => decide (y ≤ x)) (fun e => numberOf e.2) cs
    (fun a ha b hb => by
      unfold staysBefore
      rw [hnum a ha, hnum b hb]
      simp [toNumber, numberOf])
  have h := @List.sorted_mergeSort ℚ (fun x y => decide (y ≤ x))
    (fun a b c hab hbc => by
      simp only [decide_eq_true_eq] at hab hbc ⊢
      exact le_trans hbc hab)
    (fun a b => by
      simp only [Bool.or_eq_true, decide_eq_true_eq]
      exact le_total b a) (cs.map (fun e => numberOf e.2))
  rw [← hmap] at h
  have h' := List.pairwise_map.1 h
  exact h'.imp (fun hab => by simpa using hab)

/-- When no customer name of the orders is the name of a member inherited from
`Object.prototype`: `topCustomers` has at most five entries, with distinct customer
names, in non-increasing order of amount; each entry is a customer of the list with,
as amount, the sum of totalPrice over that customer's orders; and no customer left
out spent strictly more than a customer listed. -/
theorem topCustomers_of_plain_names (completedOrders : List (String × OrderData))
    (hplain : ∀ o ∈ completedOrders, inheritedText o.2.customerName = none) :
    (topCustomers completedOrders).length ≤ 5 ∧
    ((topCustomers completedOrders).map Prod.fst).Nodup ∧
    (topCustomers completedOrders).Pairwise
      (fun a b => spentBy completedOrders b.1 ≤ spentBy completedOrders a.1) ∧
    (∀ e ∈ topCustomers completedOrders,
      (∃ o ∈ completedOrders, o.2.customerName = e.1) ∧
      e.2 = .number (spentBy completedOrders e.1)) ∧
    (∀ o ∈ completedOrders,
      o.2.customerName ∉ (topCustomers completedOrders).map Prod.fst →
      ∀ e ∈ topCustomers completedOrders,
        spentBy completedOrders o.2.customerName ≤ spentBy completedOrders e.1) := by
  obtain ⟨hnd, hval, hnone⟩ := customerSpending_spec completedOrders hplain
  have hperm := List.mergeSort_perm (customerSpending completedOrders) staysBefore
  have hentry : ∀ e ∈ customerSpending completedOrders,
      e.2 = .number (spentBy completedOrders e.1) :=
    fun e he => hval _ _ (objGet_of_mem_nodup _ e hnd he)
  have hnumber : ∀ e ∈ customerSpending completedOrders,
      numberOf e.2 = spentBy completedOrders e.1 := by
    intro e he
    rw [hentry e he]
    rfl
  have hsorted' := sortedSpending_pairwise (customerSpending completedOrders)
    (fun e he => by rw [hnumber e he]; exact hentry e he)
  have hsorted : (List.mergeSort (customerSpending completedOrders) staysBefore).Pairwise
      (fun a b => spentBy completedOrders b.1 ≤ spentBy completedOrders a.1) := by
    refine hsorted'.imp_of_mem ?_
    intro a b ha hb hab
    rw [hnumber a (hperm.mem_iff.1 ha), hnumber b (hperm.mem_iff.1 hb)] at hab
    exact hab
  have hmem : ∀ e, e ∈ topCustomers completedOrders → e ∈ customerSpending completedOrders :=
    fun e he => hperm.mem_iff.1 (List.mem_of_mem_take he)
  refine ⟨List.length_take_le _ _, ?_, ?_, ?_, ?_⟩
  · have hnd' : ((List.mergeSort (customerSpending completedOrders) staysBefore).map
        Prod.fst).Nodup :=
      (hperm.map Prod.fst).nodup_iff.2 hnd
    exact hnd'.sublist ((List.take_sublist _ _).map _)
  · exact hsorted.sublist (List.take_sublist _ _)
  · intro e he
    refine ⟨?_, hentry e (hmem e he)⟩
    by_contra hno
    have hget := objGet_of_mem_nodup _ e hnd (hmem e he)
    have hall : ∀ o ∈ completedOrders, o.2.customerName ≠ e.1 :=
      fun o ho h => hno ⟨o, ho, h⟩
    have : ∀ (orders : List (String × OrderData)) (n : String),
        (∀ o ∈ orders, o.2.customerName ≠ n) → objGet (customerSpending orders) n = none := by
      intro orders n
      induction orders using List.reverseRecOn with
      | nil => intro _; rfl
      | append_singleton orders o ih =>
        intro h
        rw [customerSpending_append]
        have hn : n ≠ o.2.customerName :=
          fun h' => h o (List.mem_append_right _ (List.mem_singleton_self _)) h'.symm
        unfold assign
        split
        · exact ih (fun o' ho' => h o' (List.mem_append_left _ ho'))
        · rw [objGet_objSet_other _ _ _ _ hn]
          exact ih (fun o' ho' => h o' (List.mem_append_left _ ho'))
    rw [this completedOrders e.1 hall] at hget
    cases hget
  · intro o ho hout e he
    cases hg : objGet (customerSpending completedOrders) o.2.customerName with
    | none => exact absurd rfl (hnone _ hg o ho)
    | some a =>
      have hin : (o.2.customerName, a) ∈
          List.mergeSort (customerSpending completedOrders) staysBefore :=
        hperm.mem_iff.2 (mem_of_objGet _ _ _ hg)
      rw [← List.take_append_drop 5 (List.mergeSort (customerSpending completedOrders)
        staysBefore)] at hin hsorted
      rcases List.mem_append.1 hin with h | h
      · exact absurd (List.mem_map_of_mem Prod.fst h) hout
      · exact (List.pairwise_append.1 hsorted).2.2 e he _ h

/-- An entry of the object after an assignment bears the assigned key or was there
before. -/
theorem mem_objSet_fst {α : Type} (obj : List (String × α)) (key : String) (value : α) :
    ∀ e ∈ objSet obj key value, e.1 = key ∨ e ∈ obj := by
  intro e he
  unfold objSet at he
  split at he
  · obtain ⟨c, hc, rfl⟩ := List.mem_map.1 he
    by_cases h : (c.1 == key) = true
    · rw [if_pos h]
      exact Or.inl (by simpa using h)
    · rw [if_neg h]
      exact Or.inr hc
  · rcases List.mem_append.1 he with h | h
    · exact Or.inr h
    · rw [List.mem_singleton.1 h]
      exact Or.inl rfl

theorem mem_updateCart (cart : List (String × ℤ)) (itemId : String) (quantity : ℤ) :
    ∀ e ∈ updateCart cart itemId quantity, e.1 = itemId ∨ e ∈ cart := by
  intro e he
  unfold updateCart at he
  split at he
  · exact mem_objSet_fst cart itemId quantity e he
  · exact Or.inr (List.mem_filter.1 he).1

/-- A run of `placeOrder` leaves the screen as it was or empties the cart. -/
theorem placeOrder_ui (env : Env) (store : Store) (ui : BuyerState) :
    (placeOrder env store ui).ui = ui ∨ (placeOrder env store ui).ui.cart = [] := by
  unfold placeOrder
  split
  · exact Or.inl rfl
  · simp only
    split
    · exact Or.inl rfl
    · split
      · exact Or.inl rfl
      · split
        · exact Or.inl rfl
        · exact Or.inr rfl

/-- Every event on the ordering screen keeps the cart's items in the catalog. -/
theorem screenStep_cart_found (ui : BuyerState) (ev : ScreenEvent)
    (h : ∀ e ∈ ui.cart, (findItem ui.items e.1).isSome) :
    ∀ e ∈ (screenStep ui ev).cart, (findItem (screenStep ui ev).items e.1).isSome := by
  cases ev with
  | minus itemId =>
    show ∀ e ∈ (if (findItem ui.items itemId).isSome then _ else ui).cart,
      (findItem (if (findItem ui.items itemId).isSome then _ else ui).items e.1).isSome
    by_cases hf : (findItem ui.items itemId).isSome = true
    · rw [if_pos hf]
      intro e he
      rcases mem_updateCart _ _ _ e he with h1 | h1
      · rw [h1]; exact hf
      · exact h e h1
    · rw [if_neg hf]; exact h
  | plus itemId =>
    show ∀ e ∈ (if (findItem ui.items itemId).isSome then _ else ui).cart,
      (findItem (if (findItem ui.items itemId).isSome then _ else ui).items e.1).isSome
    by_cases hf : (findItem ui.items itemId).isSome = true
    · rw [if_pos hf]
      intro e he
      rcases mem_updateCart _ _ _ e he with h1 | h1
      · rw [h1]; exact hf
      · exact h e h1
    · rw [if_neg hf]; exact h
  | confirm env store customerInfo tables =>
    show ∀ e ∈ (placeOrder env store
        { ui with customerInfo := customerInfo, tables := tables, isModalOpen := true }).ui.cart,
      (findItem (placeOrder env store
        { ui with customerInfo := customerInfo, tables := tables, isModalOpen := true }).ui.items
          e.1).isSome
    rcases placeOrder_ui env store
      { ui with customerInfo := customerInfo, tables := tables, isModalOpen := true } with h1 | h1
    · rw [h1]; exact h
    · rw [h1]; intro e he; cases he

theorem screenRun_cart_found :
    ∀ (events : List ScreenEvent) (ui : BuyerState),
      (∀ e ∈ ui.cart, (findItem ui.items e.1).isSome) →
      ∀ e ∈ (screenRun ui events).cart, (findItem (screenRun ui events).items e.1).isSome
  | [], _, h => h
  | ev :: events, ui, h => screenRun_cart_found events (screenStep ui ev)
      (screenStep_cart_found ui ev h)

/-- An inserted order has a line exactly when some cart entry's item is in the
catalog. -/
theorem inserted_order_has_line_iff (env : Env) (store : Store) (ui : BuyerState)
    (id : String) (o : OrderData)
    (ho : (placeOrder env store ui).store.orders = store.orders ++ [(id, o)]) :
    o.items ≠ [] ↔ ∃ e ∈ ui.cart, (findItem ui.items e.1).isSome := by
  obtain ⟨_, rfl⟩ := inserted_order_eq env store ui id o ho
  show ui.cart.filterMap (lineOf ui.items) ≠ [] ↔ _
  constructor
  · intro hne
    obtain ⟨l, hl⟩ := List.exists_mem_of_ne_nil _ hne
    obtain ⟨e, he, hle⟩ := List.mem_filterMap.1 hl
    refine ⟨e, he, ?_⟩
    cases hf : findItem ui.items e.1 with
    | none => simp [lineOf, hf] at hle
    | some item => rfl
  · rintro ⟨e, he, hsome⟩
    obtain ⟨item, hf⟩ := Option.isSome_iff_exists.1 hsome
    exact List.ne_nil_of_mem
      (List.mem_filterMap.2 ⟨e, he, by simp only [lineOf, hf, Option.map_some']; rfl⟩)

/-- The category list starts with all and continues with the categories of the loaded
items, each once; it holds a value twice exactly when some item has the category
named all. An inventory document without a category is loaded with the category
other. Selecting a category other than all shows exactly the items of that
category, in catalog order. -/
theorem categories_list_and_selection (items : List Item) :
    (∃ cs, categories items = "all" :: cs ∧ cs.Nodup ∧
      ∀ c, c ∈ cs ↔ ∃ item ∈ items, item.category = c) ∧
    ((categories items).Nodup ↔ ∀ item ∈ items, item.category ≠ "all") ∧
    (∀ inventory : List (String × ItemData), ∀ d ∈ inventory, d.2.category = none →
      "other" ∈ categories (fetchItems inventory)) ∧
    (∀ c, c ≠ "all" →
      filteredItems items c = items.filter (fun item => item.category == c) ∧
      ∀ item, item ∈ filteredItems items c ↔ item ∈ items ∧ item.category = c) := by
  have hmem : ∀ c, c ∈ newSet (items.map (fun item => item.category)) ↔
      ∃ item ∈ items, item.category = c := by
    intro c
    rw [mem_newSet, List.mem_map]
  refine ⟨⟨_, rfl, newSet_nodup _, hmem⟩, ?_, ?_, ?_⟩
  · unfold categories
    rw [List.nodup_cons]
    constructor
    · rintro ⟨hnot, _⟩ item hitem hcat
      exact hnot ((hmem "all").2 ⟨item, hitem, hcat⟩)
    · intro h
      refine ⟨fun hin => ?_, newSet_nodup _⟩
      obtain ⟨item, hitem, hcat⟩ := (hmem "all").1 hin
      exact h item hitem hcat
  · intro inventory d hd hnone
    unfold categories
    rw [List.mem_cons, mem_newSet, List.mem_map]
    right
    refine ⟨_, List.mem_map_of_mem _ hd, ?_⟩
    simp [hnone]
  · intro c hc
    have heq : filteredItems items c = items.filter (fun item => item.category == c) := by
      unfold filteredItems
      rw [if_neg hc]
    refine ⟨heq, fun item => ?_⟩
    rw [heq, List.mem_filter]
    simp

/-! Settled claims. -/

/-- C1: when some cart line whose item is found in the catalog asks for more than the
item's stock, `placeOrder` stops with the not-enough-stock alert for such an item
(its name and its stock), and the store (orders, inventory, tables) and the whole
screen state (cart, catalog, form) are returned unchanged, whatever the other cart
lines and the customer info are. -/
theorem placeOrder_insufficient_stock_no_write (env : Env) (store : Store) (ui : BuyerState)
    (h : ∃ e ∈ ui.cart, ∃ item, findItem ui.items e.1 = some item ∧ item.stock < e.2) :
    ∃ e ∈ ui.cart, ∃ item, findItem ui.items e.1 = some item ∧ item.stock < e.2 ∧
      placeOrder env store ui =
        { store := store, ui := ui, alerts := [.notEnoughStock item.name item.stock],
          receipt := none } := by
  obtain ⟨e, he, item, hf, hlt, herr⟩ := scanCart_error_names_item ui.items ui.cart [] [] h
  exact ⟨e, he, item, hf, hlt, placeOrder_of_scan_error env store ui _ herr⟩

/-- C1 at the cart asking for 6 of itemA, whose stock is 5. -/
theorem placeOrder_insufficient_stock_no_write_witness :
    ∃ e ∈ (sampleUi [("itemA", 6)] sampleInfo).cart, ∃ item,
      findItem (sampleUi [("itemA", 6)] sampleInfo).items e.1 = some item ∧ item.stock < e.2 ∧
      placeOrder sampleEnv sampleStore (sampleUi [("itemA", 6)] sampleInfo) =
        { store := sampleStore, ui := sampleUi [("itemA", 6)] sampleInfo,
          alerts := [.notEnoughStock item.name item.stock], receipt := none } :=
  placeOrder_insufficient_stock_no_write sampleEnv sampleStore (sampleUi [("itemA", 6)] sampleInfo)
    ⟨("itemA", 6), List.mem_cons_self _ _,
      { id := "itemA", name := "Tea", price := 3, stock := 5, category := "other" },
      rfl, by decide⟩

/-- C2, the code at the failing input: the catalog loaded by the screen still lists
itemA with stock 5, the cart asks for 2, the form is complete and table1 is
selected, but itemA's document has meanwhile been deleted from the store. The order
is inserted, the stock write is rejected, and `placeOrder` ends with the
failed-to-place alert, the cart kept, the table not written and no receipt printed. -/
theorem placeOrder_valid_cart_can_fail :
    CartInStock (sampleUi [("itemA", 2)] sampleInfo).items
        (sampleUi [("itemA", 2)] sampleInfo).cart ∧
    (sampleUi [("itemA", 2)] sampleInfo).customerInfo.name ≠ "" ∧
    (sampleUi [("itemA", 2)] sampleInfo).customerInfo.phone ≠ "" ∧
    (sampleUi [("itemA", 2)] sampleInfo).customerInfo.tableId ≠ "" ∧
    (placeOrder sampleEnv staleStore (sampleUi [("itemA", 2)] sampleInfo)).alerts =
      [.failedToPlace] ∧
    (placeOrder sampleEnv staleStore (sampleUi [("itemA", 2)] sampleInfo)).ui =
      sampleUi [("itemA", 2)] sampleInfo ∧
    (placeOrder sampleEnv staleStore (sampleUi [("itemA", 2)] sampleInfo)).store.orders =
      staleStore.orders ++
        [("order1", orderData sampleEnv sampleInfo
          [{ id := "itemA", name := "Tea", price := 3, quantity := 2 }]
          (calculateTotal (fetchItems sampleStore.inventory) [("itemA", 2)]))] ∧
    (placeOrder sampleEnv staleStore (sampleUi [("itemA", 2)] sampleInfo)).store.inventory =
      staleStore.inventory ∧
    (placeOrder sampleEnv staleStore (sampleUi [("itemA", 2)] sampleInfo)).store.tables =
      staleStore.tables ∧
    (placeOrder sampleEnv staleStore (sampleUi [("itemA", 2)] sampleInfo)).receipt = none :=
  ⟨by decide, by decide, by decide, by decide, rfl, rfl, rfl, rfl, rfl, rfl⟩

/-- C3: whenever `placeOrder` inserts an order, the stored totalPrice is the value of
`calculateTotal` on the cart and equals the sum of price times quantity over the
order's own lines; the lines are those of the cart entries found in the catalog, so
an entry whose item is missing adds nothing to either side. -/
theorem placeOrder_total_is_sum_of_lines (env : Env) (store : Store) (ui : BuyerState)
    (id : String) (o : OrderData)
    (h : (placeOrder env store ui).store.orders = store.orders ++ [(id, o)]) :
    o.totalPrice = calculateTotal ui.items ui.cart ∧
    o.totalPrice = (o.items.map (fun l => l.price * (l.quantity : ℚ))).sum ∧
    o.items.map (fun l => l.id) =
      (ui.cart.filter (fun e => (findItem ui.items e.1).isSome)).map Prod.fst := by
  rcases placeOrder_orders env store ui with h0 | h1
  · rw [h0] at h
    have := congrArg List.length h
    simp at this
  · rw [h1] at h
    have h2 := List.append_cancel_left h
    simp only [List.cons.injEq, Prod.mk.injEq, and_true] at h2
    obtain ⟨_, rfl⟩ := h2
    exact ⟨rfl, calculateTotal_eq_sum ui.items ui.cart, filterMap_lineOf_ids ui.items ui.cart⟩

/-- C3 at the cart of two itemA (price 3) and one item missing from the catalog. -/
theorem placeOrder_total_is_sum_of_lines_witness :
    sampleOrder.totalPrice =
      calculateTotal (sampleUi sampleCart sampleInfo).items (sampleUi sampleCart sampleInfo).cart ∧
    sampleOrder.totalPrice =
      (sampleOrder.items.map (fun l => l.price * (l.quantity : ℚ))).sum ∧
    sampleOrder.items.map (fun l => l.id) =
      ((sampleUi sampleCart sampleInfo).cart.filter
        (fun e => (findItem (sampleUi sampleCart sampleInfo).items e.1).isSome)).map Prod.fst :=
  placeOrder_total_is_sum_of_lines sampleEnv sampleStore (sampleUi sampleCart sampleInfo)
    "order1" sampleOrder rfl

/-- C4 as stated fails: the screen's catalog shows stock 5 for itemA while the store
holds 2; a placement of two itemA succeeds and leaves stock 3 in the store, which is
not the store's earlier stock lowered by 2. -/
theorem placeOrder_stock_not_store_minus_quantity :
    (placeOrder sampleEnv laterStore (sampleUi [("itemA", 2)] sampleInfo)).alerts =
      [.orderPlaced] ∧
    stockOf laterStore.inventory "itemA" = some 2 ∧
    stockOf (placeOrder sampleEnv laterStore
      (sampleUi [("itemA", 2)] sampleInfo)).store.inventory "itemA" = some 3 ∧
    stockOf (placeOrder sampleEnv laterStore
      (sampleUi [("itemA", 2)] sampleInfo)).store.inventory "itemA" ≠
        (stockOf laterStore.inventory "itemA").map (fun s => s - 2) :=
  ⟨rfl, rfl, rfl, by decide⟩

/-- C4, amended: after every successful placement (the cart, an object, having distinct
keys), for each line of the inserted order, the store's stock of the line's item is
the stock recorded for it in the screen's catalog when the placement started, lowered
by exactly the ordered quantity; it is the store's own earlier stock lowered by that
quantity whenever the catalog's stock agreed with the store's. -/
theorem placeOrder_stock_is_catalog_minus_quantity (env : Env) (store : Store)
    (ui : BuyerState) (id : String) (o : OrderData)
    (hkeys : (ui.cart.map Prod.fst).Nodup)
    (hplaced : Alert.orderPlaced ∈ (placeOrder env store ui).alerts)
    (ho : (placeOrder env store ui).store.orders = store.orders ++ [(id, o)]) :
    ∀ l ∈ o.items, ∃ item, findItem ui.items l.id = some item ∧
      stockOf (placeOrder env store ui).store.inventory l.id = some (item.stock - l.quantity) ∧
      (∀ s, stockOf store.inventory l.id = some s → s = item.stock →
        stockOf (placeOrder env store ui).store.inventory l.id = some (s - l.quantity)) := by
  obtain ⟨_, hdoc, heq⟩ := placeOrder_placed_inv env store ui hplaced
  rw [heq] at ho ⊢
  have h2 := List.append_cancel_left ho
  simp only [List.cons.injEq, Prod.mk.injEq, and_true] at h2
  obtain ⟨_, rfl⟩ := h2
  intro l hl
  simp only [orderData] at hl
  obtain ⟨e, he, hle⟩ := List.mem_filterMap.1 hl
  cases hf : findItem ui.items e.1 with
  | none => simp [lineOf, hf] at hle
  | some item =>
    simp only [lineOf, hf, Option.map_some', Option.some.injEq] at hle
    subst hle
    have hu : (⟨e.1, item.stock - e.2⟩ : InventoryUpdate) ∈
        ui.cart.filterMap (updateOf ui.items) :=
      List.mem_filterMap.2 ⟨e, he, by simp [updateOf, hf]⟩
    have hstock := stockOf_foldl_setStock _ store.inventory _
      (updates_nodup ui.items ui.cart hkeys) hu (hdoc _ hu)
    exact ⟨item, hf, hstock, fun s _ hs => hs ▸ hstock⟩

/-- C4, amended, at the cart of two itemA with stock 5 in catalog and store: the line
for itemA leaves stock 3. -/
theorem placeOrder_stock_is_catalog_minus_quantity_witness :
    ∃ item, findItem (sampleUi sampleCart sampleInfo).items "itemA" = some item ∧
      stockOf (placeOrder sampleEnv sampleStore (sampleUi sampleCart sampleInfo)).store.inventory
        "itemA" = some (item.stock - 2) ∧
      (∀ s, stockOf sampleStore.inventory "itemA" = some s → s = item.stock →
        stockOf (placeOrder sampleEnv sampleStore (sampleUi sampleCart sampleInfo)).store.inventory
          "itemA" = some (s - 2)) :=
  placeOrder_stock_is_catalog_minus_quantity sampleEnv sampleStore
    (sampleUi sampleCart sampleInfo) "order1" sampleOrder (by decide) (by decide) rfl
    { id := "itemA", name := "Tea", price := 3, quantity := 2 } (List.mem_cons_self _ _)

/-- C5 as stated fails: the store holds 2 of itemA, the cart asks for 3, and the catalog
loaded earlier still shows 5; `placeOrder` does not fail, it inserts the order and
writes stock 2. -/
theorem placeOrder_does_not_reread_store :
    stockOf laterStore.inventory "itemA" = some 2 ∧
    (findItem (sampleUi [("itemA", 3)] sampleInfo).items "itemA").map (fun i => i.stock) =
      some 5 ∧
    (sampleUi [("itemA", 3)] sampleInfo).cart = [("itemA", 3)] ∧
    (placeOrder sampleEnv laterStore (sampleUi [("itemA", 3)] sampleInfo)).alerts =
      [.orderPlaced] ∧
    (placeOrder sampleEnv laterStore (sampleUi [("itemA", 3)] sampleInfo)).store.orders.length
      = laterStore.orders.length + 1 ∧
    stockOf (placeOrder sampleEnv laterStore
      (sampleUi [("itemA", 3)] sampleInfo)).store.inventory "itemA" = some 2 :=
  ⟨rfl, rfl, rfl, rfl, rfl, rfl⟩

/-- C5, amended: the stock check of `placeOrder` reads the catalog loaded earlier by the
ordering screen, never the store. For every store and every catalog, the run ends
with the not-enough-stock alert exactly when the catalog's stock of some cart item
found in it is below the requested quantity, and such a run leaves the store and the
screen state unchanged. -/
theorem placeOrder_stock_check_reads_catalog (env : Env) (store : Store) (ui : BuyerState) :
    ((∃ name stock, (placeOrder env store ui).alerts = [.notEnoughStock name stock]) ↔
      ∃ e ∈ ui.cart, ∃ item, findItem ui.items e.1 = some item ∧ item.stock < e.2) ∧
    (∀ name stock, (placeOrder env store ui).alerts = [.notEnoughStock name stock] →
      (placeOrder env store ui).store = store ∧ (placeOrder env store ui).ui = ui) := by
  rcases placeOrder_cases env store ui with
    ⟨e, he, item, hf, hlt, h⟩ | ⟨hc, ⟨_, h⟩ | ⟨_, ⟨_, h⟩ | ⟨_, ⟨_, h⟩ | ⟨_, h⟩⟩⟩⟩
  · rw [h]
    exact ⟨⟨fun _ => ⟨e, he, item, hf, hlt⟩, fun _ => ⟨_, _, rfl⟩⟩, fun _ _ _ => ⟨rfl, rfl⟩⟩
  · rw [h]
    exact ⟨⟨fun ⟨_, _, ha⟩ => by simp at ha,
      fun ⟨e, he, item, hf, hlt⟩ => absurd (hc e he item hf) (not_le.2 hlt)⟩,
      fun _ _ ha => by simp at ha⟩
  · rw [h]
    exact ⟨⟨fun ⟨_, _, ha⟩ => by simp at ha,
      fun ⟨e, he, item, hf, hlt⟩ => absurd (hc e he item hf) (not_le.2 hlt)⟩,
      fun _ _ ha => by simp at ha⟩
  · rw [h]
    exact ⟨⟨fun ⟨_, _, ha⟩ => by simp at ha,
      fun ⟨e, he, item, hf, hlt⟩ => absurd (hc e he item hf) (not_le.2 hlt)⟩,
      fun _ _ ha => by simp at ha⟩
  · have hmem : Alert.orderPlaced ∈ (placeOrder env store ui).alerts := by
      rw [h]
      simp
    have hne : ∀ name stock, (placeOrder env store ui).alerts ≠ [.notEnoughStock name stock] := by
      intro name stock ha
      rw [ha] at hmem
      simp at hmem
    exact ⟨⟨fun ⟨n, k, ha⟩ => absurd ha (hne n k),
      fun ⟨e, he, item, hf, hlt⟩ => absurd (hc e he item hf) (not_le.2 hlt)⟩,
      fun n k ha => absurd ha (hne n k)⟩

/-- C6: in a session of placements made one after another (each cart, an object, having
distinct keys), started with a catalog equal to the store's inventory, all stocks
non-negative and nobody else writing, after each placement (after the first k of
them, for every k) every stock in the store is non-negative, the catalog on the
screen is the store's inventory as a fresh load would give it, and so every item's
stock in the store is the stock the catalog holds for it. -/
theorem session_stock_nonneg_and_in_step (store : Store) (ui : BuyerState)
    (cs : List Checkout)
    (hsnap : ui.items = fetchItems store.inventory)
    (hpos : ∀ d ∈ store.inventory, 0 ≤ d.2.stock)
    (hkeys : ∀ c ∈ cs, (c.cart.map Prod.fst).Nodup) (k : ℕ) :
    (∀ d ∈ (session (store, ui) (cs.take k)).1.inventory, 0 ≤ d.2.stock) ∧
    (session (store, ui) (cs.take k)).2.items =
      fetchItems (session (store, ui) (cs.take k)).1.inventory ∧
    (session (store, ui) (cs.take k)).1.inventory.map (fun d => (d.1, d.2.stock)) =
      (session (store, ui) (cs.take k)).2.items.map (fun i => (i.id, i.stock)) := by
  obtain ⟨h1, h2⟩ := session_keeps_catalog_in_step (cs.take k) (store, ui) hsnap hpos
    (fun c hc => hkeys c (List.mem_of_mem_take hc))
  refine ⟨h2, h1, ?_⟩
  rw [h1]
  simp [fetchItems]

/-- C6 at two placements in a row from `sampleStore`. -/
theorem session_stock_nonneg_and_in_step_witness :
    (∀ d ∈ (session (sampleStore, sampleUi [] sampleInfo) (sampleSession.take 2)).1.inventory,
      0 ≤ d.2.stock) ∧
    (session (sampleStore, sampleUi [] sampleInfo) (sampleSession.take 2)).2.items =
      fetchItems (session (sampleStore, sampleUi [] sampleInfo) (sampleSession.take 2)).1.inventory ∧
    (session (sampleStore, sampleUi [] sampleInfo) (sampleSession.take 2)).1.inventory.map
        (fun d => (d.1, d.2.stock)) =
      (session (sampleStore, sampleUi [] sampleInfo) (sampleSession.take 2)).2.items.map
        (fun i => (i.id, i.stock)) :=
  session_stock_nonneg_and_in_step sampleStore (sampleUi [] sampleInfo) sampleSession
    rfl (by decide) (by decide) 2

/-- C7: when the cart passes the stock check and name and phone are filled in, a
non-empty list of free tables with no table selected makes `placeOrder` stop with
the select-a-table alert; the store (orders, inventory, tables) and the screen state
are returned unchanged. -/
theorem placeOrder_table_required (env : Env) (store : Store) (ui : BuyerState)
    (hc : CartInStock ui.items ui.cart)
    (hn : ui.customerInfo.name ≠ "") (hp : ui.customerInfo.phone ≠ "")
    (hfree : ui.tables ≠ []) (hsel : ui.customerInfo.tableId = "") :
    placeOrder env store ui =
      { store := store, ui := ui, alerts := [.selectTable], receipt := none } :=
  placeOrder_of_no_table env store ui hc hn hp ⟨List.length_pos.2 hfree, hsel⟩

/-- C7 at a cart of two itemA with table1 free and no table selected. -/
theorem placeOrder_table_required_witness :
    placeOrder sampleEnv sampleStore
        (sampleUi [("itemA", 2)] { sampleInfo with tableId := "" }) =
      { store := sampleStore, ui := sampleUi [("itemA", 2)] { sampleInfo with tableId := "" },
        alerts := [.selectTable], receipt := none } :=
  placeOrder_table_required sampleEnv sampleStore
    (sampleUi [("itemA", 2)] { sampleInfo with tableId := "" })
    (cartInStock_of_scan_ok _ _ _ rfl) (by decide) (by decide) (by decide) rfl

/-- C8: when the cart passes the stock check and the customer name or the phone is
empty, `placeOrder` stops with the fill-in-required-fields alert; the store (orders,
inventory, tables) and the screen state, the cart included, are returned unchanged. -/
theorem placeOrder_missing_customer_info (env : Env) (store : Store) (ui : BuyerState)
    (hc : CartInStock ui.items ui.cart)
    (h : ui.customerInfo.name = "" ∨ ui.customerInfo.phone = "") :
    placeOrder env store ui =
      { store := store, ui := ui, alerts := [.fillRequired], receipt := none } :=
  placeOrder_of_missing_info env store ui hc h

/-- C8 at a cart of two itemA with the phone left empty. -/
theorem placeOrder_missing_customer_info_witness :
    placeOrder sampleEnv sampleStore
        (sampleUi [("itemA", 2)] { sampleInfo with phone := "" }) =
      { store := sampleStore, ui := sampleUi [("itemA", 2)] { sampleInfo with phone := "" },
        alerts := [.fillRequired], receipt := none } :=
  placeOrder_missing_customer_info sampleEnv sampleStore
    (sampleUi [("itemA", 2)] { sampleInfo with phone := "" })
    (cartInStock_of_scan_ok _ _ _ rfl) (Or.inr rfl)

/-- C9: after a placement with table T selected in which every write was accepted (the
run shows the order-placed alert and not the table warning, whether or not the
receipt window then opens), the inserted order is filed under the generated id, T
exists in the store, every record of T has status occupied and that id as orderId,
and the tables collection is the earlier one with only T's record rewritten: every
other table record is unchanged. -/
theorem placeOrder_occupies_selected_table (env : Env) (store : Store) (ui : BuyerState)
    (hplaced : Alert.orderPlaced ∈ (placeOrder env store ui).alerts)
    (hnowarn : Alert.tableNotUpdated ∉ (placeOrder env store ui).alerts)
    (hsel : ui.customerInfo.tableId ≠ "") :
    (∃ o, (placeOrder env store ui).store.orders = store.orders ++ [(env.newId, o)]) ∧
    HasDoc (placeOrder env store ui).store.tables ui.customerInfo.tableId ∧
    (∀ d ∈ (placeOrder env store ui).store.tables, d.1 = ui.customerInfo.tableId →
      d.2.status = "occupied" ∧ d.2.orderId = some env.newId) ∧
    (placeOrder env store ui).store.tables =
      store.tables.map (fun d => if d.1 = ui.customerInfo.tableId then
          (d.1, { d.2 with status := "occupied", orderId := some env.newId,
                           timestamp := env.now })
        else d) := by
  obtain ⟨hdoc, htab⟩ := placeOrder_tables_of_all_accepted env store ui hplaced hnowarn hsel
  obtain ⟨_, _, heq⟩ := placeOrder_placed_inv env store ui hplaced
  refine ⟨⟨_, by rw [heq]⟩, ?_, ?_, ?_⟩
  · rw [htab]
    exact (hasDoc_map_iff _ _ (fun d => by split <;> rfl) _).2 hdoc
  · rw [htab]
    intro d hd hid
    obtain ⟨c, hc, rfl⟩ := List.mem_map.1 hd
    by_cases hct : c.1 = ui.customerInfo.tableId
    · simp [hct]
    · simp [hct] at hid
  · rw [htab]
    simp

/-- C9 at a placement of two itemA with table1 selected. -/
theorem placeOrder_occupies_selected_table_witness :
    (∃ o, (placeOrder sampleEnv sampleStore (sampleUi sampleCart sampleInfo)).store.orders =
      sampleStore.orders ++ [(sampleEnv.newId, o)]) ∧
    HasDoc (placeOrder sampleEnv sampleStore (sampleUi sampleCart sampleInfo)).store.tables
      (sampleUi sampleCart sampleInfo).customerInfo.tableId ∧
    (∀ d ∈ (placeOrder sampleEnv sampleStore (sampleUi sampleCart sampleInfo)).store.tables,
      d.1 = (sampleUi sampleCart sampleInfo).customerInfo.tableId →
      d.2.status = "occupied" ∧ d.2.orderId = some sampleEnv.newId) ∧
    (placeOrder sampleEnv sampleStore (sampleUi sampleCart sampleInfo)).store.tables =
      sampleStore.tables.map (fun d =>
        if d.1 = (sampleUi sampleCart sampleInfo).customerInfo.tableId then
          (d.1, { d.2 with status := "occupied", orderId := some sampleEnv.newId,
                           timestamp := sampleEnv.now })
        else d) :=
  placeOrder_occupies_selected_table sampleEnv sampleStore (sampleUi sampleCart sampleInfo)
    (by decide) (by decide) (by decide)

/-- C10: from a store in which table T is free with orderId null, a successful
placement that selects T, filed under a newly generated order id, followed by
`handleCompleteOrder` on that order from a pending-orders screen loaded after the
placement, ends with no failure alert and leaves T in the store with status free and
orderId null; every table then has the status and orderId it had before the placement. -/
theorem place_then_complete_frees_table (env : Env) (store : Store) (ui : BuyerState)
    (hsel : ui.customerInfo.tableId ≠ "")
    (hdoc : HasDoc store.tables ui.customerInfo.tableId)
    (hfree : ∀ d ∈ store.tables, d.1 = ui.customerInfo.tableId →
      d.2.status = "free" ∧ d.2.orderId = none)
    (hfresh : ¬ HasDoc store.orders env.newId)
    (hplaced : Alert.orderPlaced ∈ (placeOrder env store ui).alerts) :
    (handleCompleteOrder (placeOrder env store ui).store
      (fetchOrders (placeOrder env store ui).store.orders) env.newId).alerts = [] ∧
    HasDoc (handleCompleteOrder (placeOrder env store ui).store
      (fetchOrders (placeOrder env store ui).store.orders) env.newId).store.tables
      ui.customerInfo.tableId ∧
    (∀ d ∈ (handleCompleteOrder (placeOrder env store ui).store
      (fetchOrders (placeOrder env store ui).store.orders) env.newId).store.tables,
      d.1 = ui.customerInfo.tableId → d.2.status = "free" ∧ d.2.orderId = none) ∧
    (handleCompleteOrder (placeOrder env store ui).store
      (fetchOrders (placeOrder env store ui).store.orders) env.newId).store.tables.map
        (fun d => (d.1, d.2.status, d.2.orderId)) =
      store.tables.map (fun d => (d.1, d.2.status, d.2.orderId)) := by
  obtain ⟨_, _, heq⟩ := placeOrder_placed_inv env store ui hplaced
  rw [occupyTable_of_hasDoc env _ _ hsel hdoc] at heq
  have hfetch : fetchOrders (placeOrder env store ui).store.orders =
      fetchOrders store.orders ++
        [(env.newId, orderData env ui.customerInfo (ui.cart.filterMap (lineOf ui.items))
            (calculateTotal ui.items ui.cart))] := by
    rw [heq]
    simp [fetchOrders, List.filter_append, orderData]
  have hfresh' : ¬ HasDoc (fetchOrders store.orders) env.newId := by
    rintro ⟨d, hd, hid⟩
    exact hfresh ⟨d, (List.mem_filter.1 hd).1, hid⟩
  have hstore : HasDoc (placeOrder env store ui).store.orders env.newId := by
    rw [heq]
    exact ⟨_, List.mem_append_right _ (List.mem_singleton_self _), rfl⟩
  have htable : HasDoc (placeOrder env store ui).store.tables ui.customerInfo.tableId := by
    rw [heq]
    exact (hasDoc_map_iff _ _ (fun d => by split <;> rfl) _).2 hdoc
  have hcomplete := handleCompleteOrder_of_linked (placeOrder env store ui).store
    (fetchOrders (placeOrder env store ui).store.orders) env.newId _ ui.customerInfo.tableId
    hstore (by rw [hfetch]; exact find_append_fresh _ _ _ hfresh')
    (by simp [orderData, hsel]) hsel htable
  rw [hcomplete]
  refine ⟨rfl, ?_, ?_, ?_⟩
  · exact (hasDoc_map_iff _ _ (fun d => by split <;> rfl) _).2 htable
  · intro d hd hid
    obtain ⟨c, hc, rfl⟩ := List.mem_map.1 hd
    by_cases hct : c.1 = ui.customerInfo.tableId
    · simp [hct]
    · simp [hct] at hid
  · show List.map _ (List.map _ (placeOrder env store ui).store.tables) = _
    rw [heq]
    simp only [List.map_map]
    apply List.map_congr_left
    intro d hd
    by_cases hdt : d.1 = ui.customerInfo.tableId
    · obtain ⟨h1, h2⟩ := hfree d hd hdt
      simp [hdt, h1, h2]
    · simp [hdt]

/-- C10 at a placement of two itemA on table1, then the completion of that order. -/
theorem place_then_complete_frees_table_witness :
    (handleCompleteOrder (placeOrder sampleEnv sampleStore (sampleUi sampleCart sampleInfo)).store
      (fetchOrders (placeOrder sampleEnv sampleStore (sampleUi sampleCart sampleInfo)).store.orders)
      sampleEnv.newId).alerts = [] ∧
    HasDoc (handleCompleteOrder
      (placeOrder sampleEnv sampleStore (sampleUi sampleCart sampleInfo)).store
      (fetchOrders (placeOrder sampleEnv sampleStore (sampleUi sampleCart sampleInfo)).store.orders)
      sampleEnv.newId).store.tables (sampleUi sampleCart sampleInfo).customerInfo.tableId ∧
    (∀ d ∈ (handleCompleteOrder
      (placeOrder sampleEnv sampleStore (sampleUi sampleCart sampleInfo)).store
      (fetchOrders (placeOrder sampleEnv sampleStore (sampleUi sampleCart sampleInfo)).store.orders)
      sampleEnv.newId).store.tables,
      d.1 = (sampleUi sampleCart sampleInfo).customerInfo.tableId →
        d.2.status = "free" ∧ d.2.orderId = none) ∧
    (handleCompleteOrder
      (placeOrder sampleEnv sampleStore (sampleUi sampleCart sampleInfo)).store
      (fetchOrders (placeOrder sampleEnv sampleStore (sampleUi sampleCart sampleInfo)).store.orders)
      sampleEnv.newId).store.tables.map (fun d => (d.1, d.2.status, d.2.orderId)) =
      sampleStore.tables.map (fun d => (d.1, d.2.status, d.2.orderId)) :=
  place_then_complete_frees_table sampleEnv sampleStore (sampleUi sampleCart sampleInfo)
    (by decide) ⟨("table1", { status := "free", orderId := none, timestamp := 0 }),
      List.mem_cons_self _ _, rfl⟩
    (by decide) (by simp [HasDoc, sampleStore]) (by decide)

/-- C11: in every tables state reached from a bootstrapped tables collection by any
sequence of bootstraps, placements, completions and manual status changes, whether
their writes are accepted or rejected, every table whose status is free has orderId
null. -/
theorem reachable_free_table_has_no_order (env : Env) (inventory : List (String × ItemData))
    (orders : List (String × OrderData)) (actions : List Action) :
    ∀ d ∈ (reach { inventory := inventory, orders := orders, tables := bootstrapped env }
        actions).tables,
      d.2.status = "free" → d.2.orderId = none :=
  reach_free_unlinked actions _ (fun d hd _ => (bootstrapped_rows env d hd).2)

/-- C11 at table1 after a placement on it, the completion of that order and three more
handler runs. -/
theorem reachable_free_table_has_no_order_witness :
    (("table1", { status := "free", orderId := none, timestamp := 100 }) :
        String × TableData) ∈
      (reach { inventory := sampleStore.inventory, orders := sampleStore.orders,
               tables := bootstrapped sampleEnv } sampleRun).tables ∧
    ({ status := "free", orderId := none, timestamp := 100 } : TableData).orderId = none :=
  ⟨by decide,
   reachable_free_table_has_no_order sampleEnv sampleStore.inventory sampleStore.orders
     sampleRun ("table1", { status := "free", orderId := none, timestamp := 100 })
     (by decide) rfl⟩

/-- C12 as stated fails: after the bootstrap, a placement on table1 and a manual change
of table1 to reserved, table1 still carries the order's id and its status is
reserved, not occupied. -/
theorem reachable_linked_table_can_be_reserved :
    (("table1", { status := "reserved", orderId := some "order1", timestamp := 200 }) :
        String × TableData) ∈
      (reach { inventory := sampleStore.inventory, orders := sampleStore.orders,
               tables := bootstrapped sampleEnv } parkedRun).tables ∧
    ({ status := "reserved", orderId := some "order1", timestamp := 200 } : TableData).orderId
      ≠ none ∧
    ({ status := "reserved", orderId := some "order1", timestamp := 200 } : TableData).status
      ≠ "occupied" :=
  ⟨by decide, by decide, by decide⟩

/-- C12, amended: along every run from a bootstrapped tables collection by bootstraps,
placements, completions and manual status changes, every table whose orderId is
non-null has status occupied after every step exactly when no step is a manual
change, to a status other than free or occupied, of a table that carries an order id
at that moment; in particular, every such run ends in a state in which every table
whose orderId is non-null has status occupied. -/
theorem reachable_linked_table_is_occupied (env : Env) (inventory : List (String × ItemData))
    (orders : List (String × OrderData)) (actions : List Action) :
    ((∀ k, ∀ d ∈
        (reach { inventory := inventory, orders := orders, tables := bootstrapped env }
          (actions.take k)).tables,
        d.2.orderId ≠ none → d.2.status = "occupied") ↔
      keepsLinks { inventory := inventory, orders := orders, tables := bootstrapped env }
        actions = true) ∧
    (keepsLinks { inventory := inventory, orders := orders, tables := bootstrapped env }
        actions = true →
      ∀ d ∈
        (reach { inventory := inventory, orders := orders, tables := bootstrapped env }
          actions).tables,
        d.2.orderId ≠ none → d.2.status = "occupied") := by
  have hiff := reach_linked_occupied_iff actions
    { inventory := inventory, orders := orders, tables := bootstrapped env }
    (fun d hd h => absurd (bootstrapped_rows env d hd).2 h)
  refine ⟨hiff, fun hkeep => ?_⟩
  have h := hiff.2 hkeep actions.length
  rwa [List.take_length] at h

/-- C12, amended, at a run that reserves table2 while it carries no order and then
places an order on table1: table2 ends reserved, and every linked table is occupied. -/
theorem reachable_linked_table_is_occupied_witness :
    keepsLinks { inventory := sampleStore.inventory, orders := sampleStore.orders,
                 tables := bootstrapped sampleEnv } reservedRun = true ∧
    (("table2", { status := "reserved", orderId := none, timestamp := 200 }) :
        String × TableData) ∈
      (reach { inventory := sampleStore.inventory, orders := sampleStore.orders,
               tables := bootstrapped sampleEnv } reservedRun).tables ∧
    (("table1", { status := "occupied", orderId := some "order1", timestamp := 100 }) :
        String × TableData) ∈
      (reach { inventory := sampleStore.inventory, orders := sampleStore.orders,
               tables := bootstrapped sampleEnv } reservedRun).tables ∧
    (∀ d ∈ (reach freshStore reservedRun).tables,
      d.2.orderId ≠ none → d.2.status = "occupied") :=
  ⟨by decide, by decide, by decide,
   (reachable_linked_table_is_occupied sampleEnv sampleStore.inventory sampleStore.orders
     reservedRun).2 (by decide)⟩

/-- C13, the code at the failing input: table1 was occupied by order1 at time 100; the
completion of order1 writes status free and orderId null on table1 and leaves its
timestamp at 100, the time of the placement. The handler reads no clock at all. -/
theorem handleCompleteOrder_release_keeps_timestamp :
    (handleCompleteOrder busyStore (fetchOrders busyStore.orders) "order1").store.tables =
      [("table1", { status := "free", orderId := none, timestamp := 100 }),
       ("table2", { status := "free", orderId := none, timestamp := 0 })] ∧
    busyStore.tables =
      [("table1", { status := "occupied", orderId := some "order1", timestamp := 100 }),
       ("table2", { status := "free", orderId := none, timestamp := 0 })] :=
  ⟨rfl, rfl⟩

/-- C14: when the order that the pending-orders screen holds under the completed id has
no tableId, `handleCompleteOrder` leaves the tables collection exactly as it was. -/
theorem handleCompleteOrder_without_table_keeps_tables (store : Store)
    (orders : List (String × OrderData)) (id : String) (o : String × OrderData)
    (hfind : orders.find? (fun order => order.1 == id) = some o)
    (hno : o.2.tableId = none) :
    (handleCompleteOrder store orders id).store.tables = store.tables := by
  unfold handleCompleteOrder
  split
  · rfl
  · simp [hfind, linkedTable, hno]

/-- C14 at the completion of a pending order placed without a table. -/
theorem handleCompleteOrder_without_table_keeps_tables_witness :
    (handleCompleteOrder { busyStore with orders := [("order2", counterOrder)] }
      [("order2", counterOrder)] "order2").store.tables =
      ({ busyStore with orders := [("order2", counterOrder)] } : Store).tables :=
  handleCompleteOrder_without_table_keeps_tables
    { busyStore with orders := [("order2", counterOrder)] } [("order2", counterOrder)] "order2"
    ("order2", counterOrder) rfl rfl

/-- C15: for an order that is in the orders collection, `handleCompleteOrder` rewrites
that order's record with status completed and every other field as before, leaves
every other order's record as it was, and leaves the inventory collection unchanged. -/
theorem handleCompleteOrder_sets_only_status (store : Store)
    (orders : List (String × OrderData)) (id : String) (h : HasDoc store.orders id) :
    (handleCompleteOrder store orders id).store.orders =
      store.orders.map (fun d =>
        if d.1 = id then (d.1, { d.2 with status := "completed" }) else d) ∧
    (∀ d ∈ (handleCompleteOrder store orders id).store.orders, d.1 = id →
      d.2.status = "completed") ∧
    (handleCompleteOrder store orders id).store.inventory = store.inventory := by
  have heq : (handleCompleteOrder store orders id).store.orders =
      store.orders.map (fun d =>
        if d.1 = id then (d.1, { d.2 with status := "completed" }) else d) ∧
      (handleCompleteOrder store orders id).store.inventory = store.inventory := by
    unfold handleCompleteOrder
    rw [updateDoc_of_hasDoc _ _ _ h]
    simp
  refine ⟨heq.1, ?_, heq.2⟩
  rw [heq.1]
  intro d hd hid
  obtain ⟨c, _, rfl⟩ := List.mem_map.1 hd
  by_cases hc : c.1 = id
  · simp [hc]
  · simp [hc] at hid

/-- C15 at the completion of order1 in `busyStore`. -/
theorem handleCompleteOrder_sets_only_status_witness :
    (handleCompleteOrder busyStore (fetchOrders busyStore.orders) "order1").store.orders =
      busyStore.orders.map (fun d =>
        if d.1 = "order1" then (d.1, { d.2 with status := "completed" }) else d) ∧
    (∀ d ∈ (handleCompleteOrder busyStore (fetchOrders busyStore.orders) "order1").store.orders,
      d.1 = "order1" → d.2.status = "completed") ∧
    (handleCompleteOrder busyStore (fetchOrders busyStore.orders) "order1").store.inventory =
      busyStore.inventory :=
  handleCompleteOrder_sets_only_status busyStore (fetchOrders busyStore.orders) "order1"
    ⟨("order1", sampleOrder), List.mem_cons_self _ _, rfl⟩

/-- C16, the code at the failing input: the catalog lists itemA and itemB, itemA's
document has been deleted from the store, and the cart asks for one itemB and two
itemA. The order is inserted and itemB's stock is written; the write for itemA is
rejected, and the run ends with the failed-to-place alert alone, the cart, the
catalog and the selected table left as they were. -/
theorem placeOrder_rejected_stock_write_reported_as_failure :
    (placeOrder sampleEnv staleStore (sampleUi [("itemB", 1), ("itemA", 2)] sampleInfo)).alerts =
      [.failedToPlace] ∧
    (placeOrder sampleEnv staleStore
      (sampleUi [("itemB", 1), ("itemA", 2)] sampleInfo)).store.orders.map Prod.fst =
      staleStore.orders.map Prod.fst ++ ["order1"] ∧
    stockOf (placeOrder sampleEnv staleStore
      (sampleUi [("itemB", 1), ("itemA", 2)] sampleInfo)).store.inventory "itemB" = some 1 ∧
    (placeOrder sampleEnv staleStore (sampleUi [("itemB", 1), ("itemA", 2)] sampleInfo)).ui =
      sampleUi [("itemB", 1), ("itemA", 2)] sampleInfo ∧
    (placeOrder sampleEnv staleStore
      (sampleUi [("itemB", 1), ("itemA", 2)] sampleInfo)).store.tables = staleStore.tables :=
  ⟨rfl, rfl, rfl, rfl, rfl⟩

/-- C17: in a run of `placeOrder` with a table selected in which the cart and the form
pass validation, every stock write is accepted (each ordered item has its document)
and the table write is rejected (the table has no document), the order is inserted,
the stock writes are applied, the tables collection is untouched, the cart is cleared
and the modal closed, and the user sees the order-placed-but-table-not-updated alert
followed by the order-placed alert (and then, when the browser refuses the receipt
window, the alert of the handler's catch). -/
theorem placeOrder_rejected_table_write_still_completes (env : Env) (store : Store)
    (ui : BuyerState)
    (hc : CartInStock ui.items ui.cart)
    (hn : ui.customerInfo.name ≠ "") (hp : ui.customerInfo.phone ≠ "")
    (hsel : ui.customerInfo.tableId ≠ "")
    (hstock : ∀ e ∈ ui.cart, (findItem ui.items e.1).isSome → HasDoc store.inventory e.1)
    (htable : ¬ HasDoc store.tables ui.customerInfo.tableId) :
    (placeOrder env store ui).alerts =
      [.tableNotUpdated, .orderPlaced] ++
        (if env.popupBlocked then [.failedToPlace] else []) ∧
    (placeOrder env store ui).store.orders = store.orders ++
      [(env.newId, orderData env ui.customerInfo (ui.cart.filterMap (lineOf ui.items))
          (calculateTotal ui.items ui.cart))] ∧
    (placeOrder env store ui).store.inventory =
      (ui.cart.filterMap (updateOf ui.items)).foldl setStock store.inventory ∧
    (placeOrder env store ui).store.tables = store.tables ∧
    (placeOrder env store ui).ui.cart = [] ∧
    (placeOrder env store ui).ui.isModalOpen = false := by
  have hdoc := (updates_hasDoc_iff ui.items store.inventory ui.cart).2 hstock
  have hw := (writeInventory_flag_iff _ _).2 hdoc
  have ht : ¬ (0 < ui.tables.length ∧ ui.customerInfo.tableId = "") := fun h => hsel h.2
  rw [placeOrder_of_accepted_writes env store ui hc hn hp ht hw,
    occupyTable_of_not_hasDoc env _ _ hsel htable, writeInventory_of_hasDoc _ _ hdoc]
  refine ⟨?_, rfl, rfl, rfl, rfl, rfl⟩
  unfold printReceipt
  split <;> rfl

/-- C17 at a placement of two itemA on table1 after table1's document was deleted. -/
theorem placeOrder_rejected_table_write_still_completes_witness :
    (placeOrder laterEnv orphanStore (sampleUi sampleCart sampleInfo)).alerts =
      [.tableNotUpdated, .orderPlaced] ++
        (if laterEnv.popupBlocked then [.failedToPlace] else []) ∧
    (placeOrder laterEnv orphanStore (sampleUi sampleCart sampleInfo)).store.orders =
      orphanStore.orders ++
        [(laterEnv.newId, orderData laterEnv (sampleUi sampleCart sampleInfo).customerInfo
          ((sampleUi sampleCart sampleInfo).cart.filterMap
            (lineOf (sampleUi sampleCart sampleInfo).items))
          (calculateTotal (sampleUi sampleCart sampleInfo).items
            (sampleUi sampleCart sampleInfo).cart))] ∧
    (placeOrder laterEnv orphanStore (sampleUi sampleCart sampleInfo)).store.inventory =
      ((sampleUi sampleCart sampleInfo).cart.filterMap
        (updateOf (sampleUi sampleCart sampleInfo).items)).foldl setStock
        orphanStore.inventory ∧
    (placeOrder laterEnv orphanStore (sampleUi sampleCart sampleInfo)).store.tables =
      orphanStore.tables ∧
    (placeOrder laterEnv orphanStore (sampleUi sampleCart sampleInfo)).ui.cart = [] ∧
    (placeOrder laterEnv orphanStore (sampleUi sampleCart sampleInfo)).ui.isModalOpen = false :=
  placeOrder_rejected_table_write_still_completes laterEnv orphanStore
    (sampleUi sampleCart sampleInfo) (by decide) (by decide) (by decide) (by decide)
    (by decide) (by decide)

/-- C18: in a run of `handleCompleteOrder` on an order with a tableId, when the status
write is accepted (the order has its document) and the table write is rejected (the
table has no document), the order's record in the store has status completed, the
order is dropped from the screen's pending list, no alert is shown, and the tables
collection is untouched. -/
theorem handleCompleteOrder_rejected_release_still_completes (store : Store)
    (orders : List (String × OrderData)) (id : String) (o : String × OrderData)
    (tableId : String)
    (hstore : HasDoc store.orders id)
    (hfind : orders.find? (fun order => order.1 == id) = some o)
    (hlink : o.2.tableId = some tableId) (hsel : tableId ≠ "")
    (htable : ¬ HasDoc store.tables tableId) :
    (handleCompleteOrder store orders id).store.orders =
      store.orders.map (fun d =>
        if d.1 = id then (d.1, { d.2 with status := "completed" }) else d) ∧
    (∀ d ∈ (handleCompleteOrder store orders id).store.orders, d.1 = id →
      d.2.status = "completed") ∧
    (handleCompleteOrder store orders id).orders = orders.filter (fun order => order.1 != id) ∧
    (handleCompleteOrder store orders id).alerts = [] ∧
    (handleCompleteOrder store orders id).store.tables = store.tables := by
  have heq : handleCompleteOrder store orders id =
      { store :=
          { inventory := store.inventory
            orders := store.orders.map (fun d =>
              if d.1 == id then (d.1, { d.2 with status := "completed" }) else d)
            tables := store.tables }
        orders := orders.filter (fun order => order.1 != id)
        alerts := [] } := by
    unfold handleCompleteOrder
    rw [updateDoc_of_hasDoc _ _ _ hstore]
    simp only [hfind, linkedTable, hlink, if_neg hsel]
    rw [updateDoc_of_not_hasDoc _ _ _ htable]
  rw [heq]
  refine ⟨by simp, ?_, rfl, rfl, rfl⟩
  intro d hd hid
  obtain ⟨c, _, rfl⟩ := List.mem_map.1 hd
  by_cases hc : c.1 = id
  · simp [hc]
  · simp [hc] at hid

/-- C18 at the completion of order1, linked to table1, after table1's document was
deleted. -/
theorem handleCompleteOrder_rejected_release_still_completes_witness :
    (handleCompleteOrder orphanStore (fetchOrders orphanStore.orders) "order1").store.orders =
      orphanStore.orders.map (fun d =>
        if d.1 = "order1" then (d.1, { d.2 with status := "completed" }) else d) ∧
    (∀ d ∈ (handleCompleteOrder orphanStore (fetchOrders orphanStore.orders)
        "order1").store.orders, d.1 = "order1" → d.2.status = "completed") ∧
    (handleCompleteOrder orphanStore (fetchOrders orphanStore.orders) "order1").orders =
      (fetchOrders orphanStore.orders).filter (fun order => order.1 != "order1") ∧
    (handleCompleteOrder orphanStore (fetchOrders orphanStore.orders) "order1").alerts = [] ∧
    (handleCompleteOrder orphanStore (fetchOrders orphanStore.orders) "order1").store.tables =
      orphanStore.tables :=
  handleCompleteOrder_rejected_release_still_completes orphanStore
    (fetchOrders orphanStore.orders) "order1" ("order1", sampleOrder) "table1"
    ⟨("order1", sampleOrder), List.mem_cons_self _ _, rfl⟩ rfl rfl (by decide) (by decide)

/-- C19 as stated fails: table1 is occupied by order1; the manual change of table1 to
free sets its orderId to null. -/
theorem handleStatusChange_to_free_clears_order :
    busyStore.tables =
      [("table1", { status := "occupied", orderId := some "order1", timestamp := 100 }),
       ("table2", { status := "free", orderId := none, timestamp := 0 })] ∧
    (handleStatusChange laterEnv busyStore busyStore.tables (some "table1")
      "table1" "free").store.tables =
      [("table1", { status := "free", orderId := none, timestamp := 200 }),
       ("table2", { status := "free", orderId := none, timestamp := 0 })] :=
  ⟨rfl, rfl⟩

/-- C19, amended: for a table that has its document and any target status, the manual
status change rewrites only that table's record: the status becomes the target, the
timestamp the server time, and the orderId becomes null when the target is free and
stays exactly as it was for every other target (occupied, reserved, maintenance). No
other table, no order and no inventory item is changed. -/
theorem handleStatusChange_keeps_order_unless_free (env : Env) (store : Store)
    (tables : List (String × TableData)) (editing : Option String)
    (tableId newStatus : String) (hdoc : HasDoc store.tables tableId) :
    (handleStatusChange env store tables editing tableId newStatus).store.tables =
      store.tables.map (fun d =>
        if d.1 = tableId then
          (d.1, { status := newStatus
                  orderId := if newStatus = "free" then none else d.2.orderId
                  timestamp := env.now })
        else d) ∧
    (newStatus ≠ "free" →
      (handleStatusChange env store tables editing tableId newStatus).store.tables.map
          (fun d => (d.1, d.2.orderId)) =
        store.tables.map (fun d => (d.1, d.2.orderId))) ∧
    (handleStatusChange env store tables editing tableId newStatus).store.orders =
      store.orders ∧
    (handleStatusChange env store tables editing tableId newStatus).store.inventory =
      store.inventory := by
  have heq : (handleStatusChange env store tables editing tableId newStatus).store =
      { store with tables := store.tables.map (fun d =>
          if d.1 == tableId then (d.1, applyStatus env newStatus d.2) else d) } := by
    unfold handleStatusChange
    rw [updateDoc_of_hasDoc _ _ _ hdoc]
  rw [heq]
  refine ⟨by simp [applyStatus], ?_, rfl, rfl⟩
  intro hne
  simp only [List.map_map]
  apply List.map_congr_left
  intro d _
  by_cases hd : d.1 = tableId
  · simp [hd, applyStatus, hne]
  · simp [hd]

/-- C19, amended, at the manual change of the occupied table1 to reserved. -/
theorem handleStatusChange_keeps_order_unless_free_witness :
    (handleStatusChange laterEnv busyStore busyStore.tables (some "table1")
      "table1" "reserved").store.tables =
      busyStore.tables.map (fun d =>
        if d.1 = "table1" then
          (d.1, { status := "reserved"
                  orderId := if "reserved" = "free" then none else d.2.orderId
                  timestamp := laterEnv.now })
        else d) ∧
    ("reserved" ≠ "free" →
      (handleStatusChange laterEnv busyStore busyStore.tables (some "table1")
        "table1" "reserved").store.tables.map (fun d => (d.1, d.2.orderId)) =
        busyStore.tables.map (fun d => (d.1, d.2.orderId))) ∧
    (handleStatusChange laterEnv busyStore busyStore.tables (some "table1")
      "table1" "reserved").store.orders = busyStore.orders ∧
    (handleStatusChange laterEnv busyStore busyStore.tables (some "table1")
      "table1" "reserved").store.inventory = busyStore.inventory :=
  handleStatusChange_keeps_order_unless_free laterEnv busyStore busyStore.tables
    (some "table1") "table1" "reserved" (by decide)

/-- C20: for every store, a second run of the table bootstrap after a first one changes
nothing; on a store whose tables collection is not empty the bootstrap changes
nothing and adds no record, whichever tables the collection holds. -/
theorem initializeTables_idempotent (env env' : Env) (store : Store) :
    initializeTables env' (initializeTables env store) = initializeTables env store ∧
    (store.tables ≠ [] → initializeTables env store = store) :=
  ⟨initializeTables_of_nonempty env' _ (initializeTables_tables_ne_nil env store),
   initializeTables_of_nonempty env store⟩

/-- C20 at a tables collection that holds table2 only, which the bootstrap leaves as
it is. -/
theorem initializeTables_idempotent_witness :
    initializeTables laterEnv (initializeTables sampleEnv orphanStore) =
      initializeTables sampleEnv orphanStore ∧
    initializeTables sampleEnv orphanStore = orphanStore :=
  ⟨(initializeTables_idempotent sampleEnv laterEnv orphanStore).1,
   (initializeTables_idempotent sampleEnv laterEnv orphanStore).2 (by decide)⟩

/-- C21: on an empty tables collection the table bootstrap leaves exactly six table
records, table1 to table6 in this order, each with status free and orderId null (and
the server time as timestamp); orders and inventory are untouched. -/
theorem initializeTables_on_empty (env : Env) (inventory : List (String × ItemData))
    (orders : List (String × OrderData)) :
    initializeTables env { inventory := inventory, orders := orders, tables := [] } =
      { inventory := inventory
        orders := orders
        tables :=
          [("table1", { status := "free", orderId := none, timestamp := env.now }),
           ("table2", { status := "free", orderId := none, timestamp := env.now }),
           ("table3", { status := "free", orderId := none, timestamp := env.now }),
           ("table4", { status := "free", orderId := none, timestamp := env.now }),
           ("table5", { status := "free", orderId := none, timestamp := env.now }),
           ("table6", { status := "free", orderId := none, timestamp := env.now })] } := by
  rfl

/-- C22: whenever `placeOrder` inserts an order, its lines are, in cart order, the lines
of the cart entries whose item id is found in the catalog, each with the id, name
and price of the catalog item and the quantity of the cart entry. A cart entry
whose id is not in the catalog gives no line, leaves the store's stock under that
id as it was, and changes neither what the run writes nor the alerts it shows. -/
theorem placeOrder_lines_follow_found_entries (env : Env) (store : Store) (ui : BuyerState)
    (id : String) (o : OrderData)
    (ho : (placeOrder env store ui).store.orders = store.orders ++ [(id, o)]) :
    o.items = ui.cart.filterMap (lineOf ui.items) ∧
    (∀ l ∈ o.items, ∃ e ∈ ui.cart, ∃ item ∈ ui.items,
      findItem ui.items e.1 = some item ∧
      l = { id := item.id, name := item.name, price := item.price, quantity := e.2 }) ∧
    (∀ e ∈ ui.cart, findItem ui.items e.1 = none →
      (∀ l ∈ o.items, l.id ≠ e.1) ∧
      stockOf (placeOrder env store ui).store.inventory e.1 = stockOf store.inventory e.1) ∧
    (placeOrder env store
        { ui with cart := ui.cart.filter (fun e => (findItem ui.items e.1).isSome) }).store =
      (placeOrder env store ui).store ∧
    (placeOrder env store
        { ui with cart := ui.cart.filter (fun e => (findItem ui.items e.1).isSome) }).alerts =
      (placeOrder env store ui).alerts := by
  obtain ⟨_, rfl⟩ := inserted_order_eq env store ui id o ho
  refine ⟨rfl, ?_, ?_, (placeOrder_filter_found env store ui).1,
    (placeOrder_filter_found env store ui).2.1⟩
  · intro l hl
    obtain ⟨e, he, hle⟩ := List.mem_filterMap.1 hl
    cases hf : findItem ui.items e.1 with
    | none => simp [lineOf, hf] at hle
    | some item =>
      simp only [lineOf, hf, Option.map_some', Option.some.injEq] at hle
      have hid : item.id = e.1 := by simpa [findItem] using List.find?_some hf
      exact ⟨e, he, item, List.mem_of_find?_eq_some hf, hf, by rw [← hle, hid]⟩
  · intro e _ hnone
    constructor
    · intro l hl hid
      obtain ⟨e', _, hle⟩ := List.mem_filterMap.1 hl
      cases hf : findItem ui.items e'.1 with
      | none => simp [lineOf, hf] at hle
      | some item =>
        simp only [lineOf, hf, Option.map_some', Option.some.injEq] at hle
        rw [← hle] at hid
        simp only at hid
        rw [hid, hnone] at hf
        cases hf
    · rcases placeOrder_inventory env store ui with h | h
      · rw [h]
      · rw [h]
        exact stockOf_writeInventory_other _ _ _
          (not_mem_update_ids_of_not_found ui.items ui.cart e.1 hnone)

/-- C22 at the cart of two itemA and one item missing from the catalog. -/
theorem placeOrder_lines_follow_found_entries_witness :
    sampleOrder.items =
      (sampleUi sampleCart sampleInfo).cart.filterMap
        (lineOf (sampleUi sampleCart sampleInfo).items) ∧
    (∀ l ∈ sampleOrder.items, ∃ e ∈ (sampleUi sampleCart sampleInfo).cart,
      ∃ item ∈ (sampleUi sampleCart sampleInfo).items,
      findItem (sampleUi sampleCart sampleInfo).items e.1 = some item ∧
      l = { id := item.id, name := item.name, price := item.price, quantity := e.2 }) ∧
    (∀ e ∈ (sampleUi sampleCart sampleInfo).cart,
      findItem (sampleUi sampleCart sampleInfo).items e.1 = none →
      (∀ l ∈ sampleOrder.items, l.id ≠ e.1) ∧
      stockOf (placeOrder sampleEnv sampleStore (sampleUi sampleCart sampleInfo)).store.inventory
        e.1 = stockOf sampleStore.inventory e.1) ∧
    (placeOrder sampleEnv sampleStore
        { sampleUi sampleCart sampleInfo with
          cart := (sampleUi sampleCart sampleInfo).cart.filter
            (fun e => (findItem (sampleUi sampleCart sampleInfo).items e.1).isSome) }).store =
      (placeOrder sampleEnv sampleStore (sampleUi sampleCart sampleInfo)).store ∧
    (placeOrder sampleEnv sampleStore
        { sampleUi sampleCart sampleInfo with
          cart := (sampleUi sampleCart sampleInfo).cart.filter
            (fun e => (findItem (sampleUi sampleCart sampleInfo).items e.1).isSome) }).alerts =
      (placeOrder sampleEnv sampleStore (sampleUi sampleCart sampleInfo)).alerts :=
  placeOrder_lines_follow_found_entries sampleEnv sampleStore (sampleUi sampleCart sampleInfo)
    "order1" sampleOrder rfl

/-- C23: a cart line whose quantity equals the catalog stock of its item passes the
stock check. With the other lines within stock, name and phone filled in and a table
selected whenever free tables are listed, `placeOrder` shows no not-enough-stock
alert, asks for stock 0 for the item, and inserts the order with that line; with
every stock write accepted (every ordered item has its document in the store's
inventory) the run shows the order-placed alert, empties the cart, and leaves stock
0 for the item in the store. -/
theorem placeOrder_full_stock_line (env : Env) (store : Store) (ui : BuyerState)
    (e : String × ℤ) (item : Item)
    (he : e ∈ ui.cart) (hf : findItem ui.items e.1 = some item) (hq : e.2 = item.stock)
    (hothers : ∀ e' ∈ ui.cart, e' ≠ e → ∀ item', findItem ui.items e'.1 = some item' →
      e'.2 ≤ item'.stock)
    (hkeys : (ui.cart.map Prod.fst).Nodup)
    (hn : ui.customerInfo.name ≠ "") (hp : ui.customerInfo.phone ≠ "")
    (ht : ui.tables ≠ [] → ui.customerInfo.tableId ≠ "") :
    (∀ name stock, Alert.notEnoughStock name stock ∉ (placeOrder env store ui).alerts) ∧
    scanCart ui.items ui.cart [] [] =
      .ok (ui.cart.filterMap (lineOf ui.items), ui.cart.filterMap (updateOf ui.items)) ∧
    ({ id := e.1, newStock := 0 } : InventoryUpdate) ∈ ui.cart.filterMap (updateOf ui.items) ∧
    (∃ o : OrderData,
      (placeOrder env store ui).store.orders = store.orders ++ [(env.newId, o)] ∧
      ({ id := e.1, name := item.name, price := item.price, quantity := item.stock } :
        OrderLine) ∈ o.items) ∧
    ((∀ e' ∈ ui.cart, (findItem ui.items e'.1).isSome → HasDoc store.inventory e'.1) →
      Alert.orderPlaced ∈ (placeOrder env store ui).alerts ∧
      (placeOrder env store ui).ui.cart = [] ∧
      stockOf (placeOrder env store ui).store.inventory e.1 = some 0) := by
  have hc : CartInStock ui.items ui.cart := by
    intro e' he' item' hf'
    by_cases hee : e' = e
    · subst hee
      rw [hf] at hf'
      cases hf'
      exact le_of_eq hq
    · exact hothers e' he' hee item' hf'
  obtain ⟨ho, hyes, hno⟩ := placeOrder_valid_alerts env store ui hc hn hp ht
  have hu : (⟨e.1, 0⟩ : InventoryUpdate) ∈ ui.cart.filterMap (updateOf ui.items) :=
    List.mem_filterMap.2 ⟨e, he, by simp [updateOf, hf, hq]⟩
  refine ⟨?_, by simpa using scanCart_ok_of_inStock ui.items ui.cart [] [] hc, hu,
    ⟨_, ho, ?_⟩, ?_⟩
  · intro name stock hmem
    by_cases hall : ∀ e' ∈ ui.cart, (findItem ui.items e'.1).isSome →
        HasDoc store.inventory e'.1
    · rw [hyes hall] at hmem
      unfold occupyTable printReceipt at hmem
      split at hmem
      · split at hmem <;> simp at hmem
      · split at hmem <;> split at hmem <;> simp at hmem
    · rw [hno hall] at hmem
      simp at hmem
  · show _ ∈ ui.cart.filterMap (lineOf ui.items)
    exact List.mem_filterMap.2 ⟨e, he, by simp [lineOf, hf, hq]⟩
  · intro hdocs
    have hdoc := (updates_hasDoc_iff ui.items store.inventory ui.cart).2 hdocs
    have hw := (writeInventory_flag_iff _ _).2 hdoc
    have ht' : ¬ (0 < ui.tables.length ∧ ui.customerInfo.tableId = "") :=
      fun h => ht (List.length_pos.1 h.1) h.2
    have hrun := placeOrder_of_accepted_writes env store ui hc hn hp ht' hw
    refine ⟨?_, ?_, ?_⟩
    · rw [hyes hdocs]
      simp
    · rw [hrun]
    · rw [hrun, writeInventory_of_hasDoc _ _ hdoc]
      exact stockOf_foldl_setStock _ store.inventory ⟨e.1, 0⟩
        (updates_nodup ui.items ui.cart hkeys) hu (hdoc _ hu)

/-- C23 at the cart asking for all five itemA with the store the screen was loaded
from. -/
theorem placeOrder_full_stock_line_witness :
    (∀ name stock, Alert.notEnoughStock name stock ∉
      (placeOrder sampleEnv sampleStore (sampleUi [("itemA", 5)] sampleInfo)).alerts) ∧
    scanCart (sampleUi [("itemA", 5)] sampleInfo).items
        (sampleUi [("itemA", 5)] sampleInfo).cart [] [] =
      .ok ((sampleUi [("itemA", 5)] sampleInfo).cart.filterMap
            (lineOf (sampleUi [("itemA", 5)] sampleInfo).items),
           (sampleUi [("itemA", 5)] sampleInfo).cart.filterMap
            (updateOf (sampleUi [("itemA", 5)] sampleInfo).items)) ∧
    ({ id := "itemA", newStock := 0 } : InventoryUpdate) ∈
      (sampleUi [("itemA", 5)] sampleInfo).cart.filterMap
        (updateOf (sampleUi [("itemA", 5)] sampleInfo).items) ∧
    (∃ o : OrderData,
      (placeOrder sampleEnv sampleStore (sampleUi [("itemA", 5)] sampleInfo)).store.orders =
        sampleStore.orders ++ [(sampleEnv.newId, o)] ∧
      ({ id := "itemA", name := "Tea", price := 3, quantity := 5 } : OrderLine) ∈ o.items) ∧
    (∀ e' ∈ (sampleUi [("itemA", 5)] sampleInfo).cart,
      (findItem (sampleUi [("itemA", 5)] sampleInfo).items e'.1).isSome →
        HasDoc sampleStore.inventory e'.1) ∧
    Alert.orderPlaced ∈
      (placeOrder sampleEnv sampleStore (sampleUi [("itemA", 5)] sampleInfo)).alerts ∧
    (placeOrder sampleEnv sampleStore (sampleUi [("itemA", 5)] sampleInfo)).ui.cart = [] ∧
    stockOf (placeOrder sampleEnv sampleStore
      (sampleUi [("itemA", 5)] sampleInfo)).store.inventory "itemA" = some 0 :=
  have h := placeOrder_full_stock_line sampleEnv sampleStore
    (sampleUi [("itemA", 5)] sampleInfo) ("itemA", 5)
    { id := "itemA", name := "Tea", price := 3, stock := 5, category := "other" }
    (List.mem_cons_self _ _) rfl rfl (by decide) (by decide) (by decide) (by decide)
    (fun _ => by decide)
  ⟨h.1, h.2.1, h.2.2.1, h.2.2.2.1, by decide, h.2.2.2.2 (by decide)⟩

/-- C24: for a sign-in that the authentication service accepts with user id uid, the
route depends on the role in the user's record alone: admin navigates to /summary,
buyer to /buyer, any other or missing role and a missing record navigate nowhere;
the user type selected in the form changes nothing in the outcome. -/
theorem handleSubmit_routes_by_stored_role (signIn : String → String → Option String)
    (users : List (String × UserData)) (form : LoginForm) (uid : String)
    (hsign : signIn form.email form.password = some uid) :
    (∀ userDoc, users.find? (fun d => d.1 == uid) = some userDoc →
      (userDoc.2.role = some "admin" →
        (handleSubmit signIn users form).route = some "/summary") ∧
      (userDoc.2.role = some "buyer" →
        (handleSubmit signIn users form).route = some "/buyer") ∧
      (userDoc.2.role ≠ some "admin" → userDoc.2.role ≠ some "buyer" →
        (handleSubmit signIn users form).route = none)) ∧
    (users.find? (fun d => d.1 == uid) = none →
      (handleSubmit signIn users form).route = none) ∧
    (∀ userType, handleSubmit signIn users { form with userType := userType } =
      handleSubmit signIn users form) := by
  refine ⟨?_, ?_, fun _ => rfl⟩
  · intro userDoc hfind
    unfold handleSubmit
    simp only [hsign, hfind]
    refine ⟨fun h => by simp [h], fun h => by simp [h], fun h1 h2 => by simp [h1, h2]⟩
  · intro hfind
    unfold handleSubmit
    simp only [hsign, hfind]

/-- C24 at the sign-in of the admin account with user type buyer selected. -/
theorem handleSubmit_routes_by_stored_role_witness :
    (∀ userDoc, sampleUsers.find? (fun d => d.1 == "uidBoss") = some userDoc →
      (userDoc.2.role = some "admin" →
        (handleSubmit sampleSignIn sampleUsers
          { email := "boss@example.com", password := "secret", userType := "buyer" }).route =
          some "/summary") ∧
      (userDoc.2.role = some "buyer" →
        (handleSubmit sampleSignIn sampleUsers
          { email := "boss@example.com", password := "secret", userType := "buyer" }).route =
          some "/buyer") ∧
      (userDoc.2.role ≠ some "admin" → userDoc.2.role ≠ some "buyer" →
        (handleSubmit sampleSignIn sampleUsers
          { email := "boss@example.com", password := "secret", userType := "buyer" }).route =
          none)) ∧
    (sampleUsers.find? (fun d => d.1 == "uidBoss") = none →
      (handleSubmit sampleSignIn sampleUsers
        { email := "boss@example.com", password := "secret", userType := "buyer" }).route =
        none) ∧
    (∀ userType, handleSubmit sampleSignIn sampleUsers
        { ({ email := "boss@example.com", password := "secret", userType := "buyer" } :
            LoginForm) with userType := userType } =
      handleSubmit sampleSignIn sampleUsers
        { email := "boss@example.com", password := "secret", userType := "buyer" }) :=
  handleSubmit_routes_by_stored_role sampleSignIn sampleUsers
    { email := "boss@example.com", password := "secret", userType := "buyer" } "uidBoss"
    (by decide)

/-- C25 as stated fails: after the bootstrap, order1 is placed on table1, table1 is
manually set to free, order2 is placed on table1, and order1 is completed; table1
ends free with orderId null while order2, which names table1, is still pending. -/
theorem completion_frees_table_held_by_other_order :
    (reach { inventory := sampleStore.inventory, orders := sampleStore.orders,
             tables := bootstrapped sampleEnv } (doubleBookingRun.take 3)).tables.take 1 =
      [("table1", { status := "occupied", orderId := some "order2", timestamp := 200 })] ∧
    (reach { inventory := sampleStore.inventory, orders := sampleStore.orders,
             tables := bootstrapped sampleEnv } doubleBookingRun).tables.take 1 =
      [("table1", { status := "free", orderId := none, timestamp := 200 })] ∧
    (reach { inventory := sampleStore.inventory, orders := sampleStore.orders,
             tables := bootstrapped sampleEnv } doubleBookingRun).orders.map
        (fun d => (d.1, d.2.status, d.2.tableId)) =
      [("order1", "completed", some "table1"), ("order2", "pending", some "table1")] :=
  ⟨by decide, by decide, by decide⟩

/-- C25, amended: completion releases the table named by the completed order without
looking at who holds it. When order A is in the store and in the screen's list with
tableId T, and T has its document, `handleCompleteOrder` on A sets T's status to
free and its orderId to null whatever T's orderId was, the id of another order
included; every other table is left as it was. -/
theorem handleCompleteOrder_frees_named_table (store : Store)
    (orders : List (String × OrderData)) (id : String) (o : String × OrderData)
    (tableId : String)
    (hstore : HasDoc store.orders id)
    (hfind : orders.find? (fun order => order.1 == id) = some o)
    (hlink : o.2.tableId = some tableId) (hsel : tableId ≠ "")
    (htable : HasDoc store.tables tableId) :
    (handleCompleteOrder store orders id).store.tables =
      store.tables.map (fun d =>
        if d.1 = tableId then (d.1, { d.2 with status := "free", orderId := none }) else d) ∧
    (∀ d ∈ (handleCompleteOrder store orders id).store.tables, d.1 = tableId →
      d.2.status = "free" ∧ d.2.orderId = none) := by
  rw [handleCompleteOrder_of_linked store orders id o tableId hstore hfind hlink hsel htable]
  refine ⟨by simp, ?_⟩
  intro d hd hid
  obtain ⟨c, _, rfl⟩ := List.mem_map.1 hd
  by_cases hc : c.1 = tableId
  · simp [hc]
  · simp [hc] at hid

/-- C25, amended, at the completion of order1 while table1 is held by order2. -/
theorem handleCompleteOrder_frees_named_table_witness :
    (handleCompleteOrder sharedTableStore (fetchOrders sharedTableStore.orders)
      "order1").store.tables =
      sharedTableStore.tables.map (fun d =>
        if d.1 = "table1" then (d.1, { d.2 with status := "free", orderId := none })
        else d) ∧
    (∀ d ∈ (handleCompleteOrder sharedTableStore (fetchOrders sharedTableStore.orders)
      "order1").store.tables, d.1 = "table1" → d.2.status = "free" ∧ d.2.orderId = none) :=
  handleCompleteOrder_frees_named_table sharedTableStore (fetchOrders sharedTableStore.orders)
    "order1" ("order1", sampleOrder) "table1"
    ⟨("order1", sampleOrder), List.mem_cons_self _ _, rfl⟩ rfl rfl (by decide) (by decide)

/-- C26: on every state that the ordering screen reaches from the loaded catalog and an
empty cart by presses of the minus and plus buttons and by confirmations of the
order, every cart entry's item is in the catalog; so whenever the cart is not empty
and `placeOrder`, run with any form and free-table list on any store, inserts an
order, the inserted order has at least one line. -/
theorem placeOrder_never_inserts_empty_order (inventory : List (String × ItemData))
    (events : List ScreenEvent) :
    (∀ e ∈ (screenRun (loadedScreen inventory) events).cart,
      (findItem (screenRun (loadedScreen inventory) events).items e.1).isSome) ∧
    ((screenRun (loadedScreen inventory) events).cart ≠ [] →
      ∀ (env : Env) (store : Store) (customerInfo : CustomerInfo)
        (tables : List (String × TableData)) (id : String) (o : OrderData),
        (placeOrder env store
          { screenRun (loadedScreen inventory) events with
            customerInfo := customerInfo, tables := tables, isModalOpen := true }).store.orders =
          store.orders ++ [(id, o)] →
        o.items ≠ []) := by
  have hfound := screenRun_cart_found events (loadedScreen inventory)
    (fun e he => by cases he)
  refine ⟨hfound, ?_⟩
  intro hne env store customerInfo tables id o ho
  obtain ⟨e, he⟩ := List.exists_mem_of_ne_nil _ hne
  exact (inserted_order_has_line_iff env store _ id o ho).2 ⟨e, he, hfound e he⟩

/-- C26 at the cart that five presses leave, two itemA, and the order placed from it. -/
theorem placeOrder_never_inserts_empty_order_witness :
    (screenRun (loadedScreen sampleStore.inventory) pressedRun).cart = [("itemA", 2)] ∧
    (placeOrder sampleEnv sampleStore
      { screenRun (loadedScreen sampleStore.inventory) pressedRun with
        customerInfo := sampleInfo, tables := fetchTables sampleStore.tables,
        isModalOpen := true }).store.orders =
      sampleStore.orders ++
        [("order1", orderData sampleEnv sampleInfo
          [{ id := "itemA", name := "Tea", price := 3, quantity := 2 }]
          (calculateTotal (fetchItems sampleStore.inventory) [("itemA", 2)]))] ∧
    (orderData sampleEnv sampleInfo
      [{ id := "itemA", name := "Tea", price := 3, quantity := 2 }]
      (calculateTotal (fetchItems sampleStore.inventory) [("itemA", 2)])).items ≠ [] :=
  ⟨by decide, rfl,
   (placeOrder_never_inserts_empty_order sampleStore.inventory pressedRun).2 (by decide)
     sampleEnv sampleStore sampleInfo (fetchTables sampleStore.tables) "order1" _ rfl⟩

/-- C27, the code at the failing input: the inventory holds two items, with stock 5 and
stock 2, both below 10; the count that the dashboard stores is 0, because it reads
the field quantity, which inventory documents do not have. -/
theorem lowStockItems_counts_nothing :
    lowStockItems sampleStore.inventory = 0 ∧
    (sampleStore.inventory.filter (fun item => decide (item.2.stock < 10))).length = 2 :=
  ⟨lowStockItems_eq_zero _, by decide⟩

/-- C28: on a cart whose quantities are all at least 1, `updateCart` with any item id
and any integer quantity gives a cart whose quantities are all at least 1, in which
the id maps to the quantity when it is positive and is absent when it is not, and in
which every other id maps to what it mapped to before. -/
theorem updateCart_keeps_quantities_positive (cart : List (String × ℤ)) (itemId : String)
    (quantity : ℤ) (hpos : ∀ e ∈ cart, 1 ≤ e.2) :
    (∀ e ∈ updateCart cart itemId quantity, 1 ≤ e.2) ∧
    (0 < quantity → objGet (updateCart cart itemId quantity) itemId = some quantity) ∧
    (quantity ≤ 0 → objGet (updateCart cart itemId quantity) itemId = none ∧
      ∀ e ∈ updateCart cart itemId quantity, e.1 ≠ itemId) ∧
    (∀ x, x ≠ itemId → objGet (updateCart cart itemId quantity) x = objGet cart x) := by
  unfold updateCart
  by_cases hq : 0 < quantity
  · simp only [if_pos hq]
    refine ⟨forall_objSet (fun q => 1 ≤ q) cart itemId quantity hq hpos,
      fun _ => objGet_objSet_same cart itemId quantity,
      fun hle => absurd hq (not_lt.2 hle),
      fun x hx => objGet_objSet_other cart itemId x quantity hx⟩
  · simp only [if_neg hq]
    refine ⟨fun e he => hpos e (List.mem_filter.1 he).1, fun h => absurd h hq,
      fun _ => ⟨objGet_objDelete_same cart itemId,
        (objGet_eq_none_iff _ _).1 (objGet_objDelete_same cart itemId)⟩,
      fun x hx => objGet_objDelete_other itemId x hx cart⟩

/-- C28 at a cart of one itemA and two itemB, with itemA set to 3. -/
theorem updateCart_keeps_quantities_positive_witness :
    (∀ e ∈ updateCart [("itemA", 1), ("itemB", 2)] "itemA" 3, 1 ≤ e.2) ∧
    (0 < (3 : ℤ) → objGet (updateCart [("itemA", 1), ("itemB", 2)] "itemA" 3) "itemA" = some 3) ∧
    ((3 : ℤ) ≤ 0 → objGet (updateCart [("itemA", 1), ("itemB", 2)] "itemA" 3) "itemA" = none ∧
      ∀ e ∈ updateCart [("itemA", 1), ("itemB", 2)] "itemA" 3, e.1 ≠ "itemA") ∧
    (∀ x, x ≠ "itemA" → objGet (updateCart [("itemA", 1), ("itemB", 2)] "itemA" 3) x =
      objGet [("itemA", 1), ("itemB", 2)] x) :=
  updateCart_keeps_quantities_positive [("itemA", 1), ("itemB", 2)] "itemA" 3 (by decide)

/-- C29, the code at the failing input: the catalog holds an item whose category is
named all (and one without a category, loaded as other); the category list is all,
all, other: the value all appears twice, under the comment that announces unique
categories. -/
theorem categories_can_repeat_all :
    categories allCategoryItems = ["all", "all", "other"] ∧
    ¬ (categories allCategoryItems).Nodup ∧
    allCategoryItems.map (fun item => item.category) = ["all", "other"] :=
  ⟨by decide, by decide, by decide⟩

/-- C30, the code at the failing input: one completed order of 10 by a customer who
gave the name toString. The accumulator reads the function that every object
inherits under that name instead of 0, so the amount stored is the text of that
function followed by 10, not the customer's total 10, and `topCustomers` lists the
customer with that text as amount. -/
theorem topCustomers_amount_can_be_text :
    topCustomers namedToString =
      [("toString", .text "function toString() \x7b [native code] \x7d" [10])] ∧
    spentBy namedToString "toString" = 10 := by
  refine ⟨?_, ?_⟩
  · have h : customerSpending namedToString =
        [("toString", .text "function toString() \x7b [native code] \x7d" [10])] := by
      decide
    unfold topCustomers
    rw [h, List.mergeSort_singleton]
    rfl
  · simp [spentBy, namedToString]


end SmartSales
